import Mathlib

/-!
# System information script: collect, render, persist

A shallow embedding of `main.go` and `utils/utils.go`.

The program talks to the operating system (five gopsutil queries, the console,
one file, process exit).  These effects are made explicit:

* `Env` holds what the outside world answers: the `(value, error)` pair each
  query returns, the outcome of `os.Create` and of `file.Write`, the value of
  `runtime.Version()`, and the `encoding/json` encoders of the gopsutil records.
* `World` is the observable state: what was printed, what was logged, the
  contents of `system-info.json`, the state of the file handle, and the list of
  functions entered so far.
* `Run α` is how a Go function can end: it returns to its caller, the process
  exits (`os.Exit`, reached through `log.Fatalf`), or the runtime panics.

Go pointers and slices keep their `nil`: a pointer is an `Option`, a slice is an
`Option (List _)` with `none` the nil slice and `some []` the empty non-nil one.
-/

namespace SysInfoScript

/-! ## Go values -/

/-- Go `error` values that are not nil, identified by their message. -/
abbrev GoError := String

/-- Go pointer: `none` is the nil pointer. -/
abbrev Ptr (α : Type) := Option α

/-- Go slice: `none` is the nil slice, `some []` an empty slice that is not nil. -/
abbrev Slice (α : Type) := Option (List α)

/-- Elements of a slice in order; `range` over a nil slice runs zero times. -/
def elems {α : Type} : Slice α → List α
  | none => []
  | some xs => xs

/-- Go builtin `append(s, xs...)`: with nothing to append the result is `s`
itself (so a nil `s` stays nil), otherwise a slice holding the elements of `s`
followed by those of `xs`. -/
def goAppend {α : Type} (s : Slice α) (xs : Slice α) : Slice α :=
  match elems xs with
  | [] => s
  | y :: ys => some (elems s ++ y :: ys)

/-- Go `float64` value: a finite value `(-1)^neg * mant * 2^exp`, an infinity,
or NaN.  Every finite IEEE double is of the first form. -/
inductive Float64
  | finite (neg : Bool) (mant : Nat) (exp : Int)
  | inf (neg : Bool)
  | nan
  deriving DecidableEq, Repr

/-- Result pair `(value, err)` of a Go call; `err = none` is the nil error. -/
structure Query (α : Type) where
  val : α
  err : Option GoError

/-! ## gopsutil records (the fields the program reads)

Text fields are Unicode strings.  A Go string may also hold bytes that are not
valid UTF-8; such text is outside this model. -/

/-- Record `cpu.InfoStat`: `CPU` and `Cores` are `int32`, `Mhz` is `float64`. -/
structure cpu.InfoStat where
  CPU : Int
  ModelName : String
  Cores : Int
  Mhz : Float64
  deriving DecidableEq, Repr

/-- Record `mem.VirtualMemoryStat`: the counters are `uint64`. -/
structure mem.VirtualMemoryStat where
  Total : Nat
  Available : Nat
  Used : Nat
  UsedPercent : Float64
  deriving DecidableEq, Repr

/-- Record `disk.UsageStat`. -/
structure disk.UsageStat where
  Path : String
  Total : Nat
  Free : Nat
  Used : Nat
  UsedPercent : Float64
  deriving DecidableEq, Repr

/-- Record `host.InfoStat`: `Uptime`, `BootTime` and `Procs` are `uint64`. -/
structure host.InfoStat where
  Hostname : String
  OS : String
  Platform : String
  PlatformFamily : String
  PlatformVersion : String
  KernelVersion : String
  KernelArch : String
  Uptime : Nat
  BootTime : Nat
  Procs : Nat
  deriving DecidableEq, Repr

/-- Record `net.IOCountersStat`. -/
structure net.IOCountersStat where
  Name : String
  BytesSent : Nat
  BytesRecv : Nat
  PacketsSent : Nat
  PacketsRecv : Nat
  deriving DecidableEq, Repr

/-- The snapshot, `utils.SysInfo` (utils.go 19-25). -/
structure SysInfo where
  CPUInfo : Slice cpu.InfoStat
  VmStat : Ptr mem.VirtualMemoryStat
  DiscStat : Ptr disk.UsageStat
  HostStat : Ptr host.InfoStat
  NetStat : Slice net.IOCountersStat
  deriving DecidableEq, Repr

/-- The zero value `utils.SysInfo{}`: nil slices and nil pointers. -/
def SysInfo.zero : SysInfo :=
  { CPUInfo := none, VmStat := none, DiscStat := none, HostStat := none, NetStat := none }

/-! ## Formatting (`fmt.Sprintf`) -/

/-- Verb `%d` of `fmt.Sprintf`: the decimal digits, with a leading `-` when negative. -/
def sprintfD (n : Int) : String := toString n

/-- Two decimal digits of `n % 100`, zero padded. -/
def twoDigits (n : Nat) : String :=
  String.mk [Nat.digitChar (n / 10 % 10), Nat.digitChar (n % 10)]

/-- Integer nearest to `100 * mant * 2^exp`, ties to even: the rounding
`strconv.FormatFloat(x, 'f', 2, 64)` applies to the exact value of `x`. -/
def roundHundredths (mant : Nat) (exp : Int) : Nat :=
  match exp with
  | Int.ofNat e => 100 * mant * 2 ^ e
  | Int.negSucc e =>
    let d := 2 ^ (e + 1)
    let q := 100 * mant / d
    let r := 100 * mant % d
    if 2 * r > d then q + 1
    else if 2 * r = d then (if q % 2 = 1 then q + 1 else q)
    else q

/-- Verb `%.2f` of `fmt.Sprintf`. -/
def sprintfF2 : Float64 → String
  | .nan => "NaN"
  | .inf false => "+Inf"
  | .inf true => "-Inf"
  | .finite neg mant exp =>
    let h := roundHundredths mant exp
    (if neg then "-" else "") ++ toString (h / 100) ++ "." ++ twoDigits h

/-- A non-empty run of decimal digits. -/
def isDigits (cs : List Char) : Bool := !cs.isEmpty && cs.all Char.isDigit

/-- The text after an optional leading `-`. -/
def dropSign : List Char → List Char
  | '-' :: cs => cs
  | cs => cs

/-- One more decimal digit read after the number read so far. -/
def digitStep (acc : Option Nat) (c : Char) : Option Nat :=
  acc.bind fun n => if c.isDigit then some (10 * n + (c.toNat - 48)) else none

/-- Value of a run of decimal digits. -/
def digitsToNat : List Char → Option Nat
  | [] => none
  | c :: cs => (c :: cs).foldl digitStep (some 0)

/-! ## Console, file and process -/

/-- Attributes of `github.com/fatih/color` the program uses. -/
inductive Attr
  | FgCyan | FgGreen | FgYellow | Bold
  deriving DecidableEq, Repr

/-- A `tablewriter` table: the header set by `SetHeader` and the rows appended so far. -/
structure Table where
  header : List String
  rows : List (List String)
  deriving DecidableEq, Repr

/-- One write to standard output: a coloured text (`color.New(attrs...).Println`
or `.Printf`, the text as written, newline included) or one `table.Render()`. -/
inductive Out
  | colored (attrs : List Attr) (text : String)
  | table (t : Table)
  deriving DecidableEq, Repr

/-- State of the handle `os.Create` returns: `closed` once `file.Close()` has run. -/
inductive Handle
  | absent | opened | closed
  deriving DecidableEq, Repr

/-- The functions of the program, for the record of which were entered. -/
inductive Fn
  | GetCPUInfo | GetVmStat | GetDiscStat | GetHostStat | GetNetStat
  | PrintSystemInfo | SaveSystemInfoToFile
  deriving DecidableEq, Repr

/-- Observable state of one process run. -/
structure World where
  /-- what was written to standard output, oldest first -/
  stdout : List Out
  /-- messages written by the `log` package, oldest first -/
  stderr : List String
  /-- contents of `system-info.json`; `none` when the file does not exist -/
  file : Option String
  /-- the handle opened by `SaveSystemInfoToFile` -/
  handle : Handle
  /-- functions entered so far, oldest first -/
  entered : List Fn
  deriving DecidableEq, Repr

/-- How a Go function ends: it returns, the process exits with a status, or
the runtime panics (a nil pointer dereference). -/
inductive Run (α : Type)
  | ret (a : α) (w : World)
  | exit (code : Nat) (w : World)
  | panic (w : World)

/-- Sequencing of two statements: the second runs only if the first returned. -/
def Run.bind {α β : Type} : Run α → (α → World → Run β) → Run β
  | .ret a w, f => f a w
  | .exit c w, _ => .exit c w
  | .panic w, _ => .panic w

/-- The world a run ends in. -/
def Run.world {α : Type} : Run α → World
  | .ret _ w => w
  | .exit _ w => w
  | .panic w => w

/-- Exit status of the process when `main` ends this way: 0 when `main`
returns, the argument of `os.Exit`, 2 for an unrecovered panic. -/
def Run.status {α : Type} : Run α → Nat
  | .ret _ _ => 0
  | .exit c _ => c
  | .panic _ => 2

/-- Function `log.Fatalf`: prints the message with `log`, then `os.Exit(1)`.
Nothing after it runs, deferred calls included. -/
def logFatalf {α : Type} (msg : String) (w : World) : Run α :=
  .exit 1 { w with stderr := w.stderr ++ [msg] }

/-- Records that a function was entered. -/
def enter (f : Fn) (w : World) : World :=
  { w with entered := w.entered ++ [f] }

/-- Method `color.New(attrs...).Println(text)`. -/
def colorPrintln (attrs : List Attr) (text : String) (w : World) : World :=
  { w with stdout := w.stdout ++ [.colored attrs (text ++ "\n")] }

/-- Method `color.New(attrs...).Printf(text)`. -/
def colorPrintf (attrs : List Attr) (text : String) (w : World) : World :=
  { w with stdout := w.stdout ++ [.colored attrs text] }

/-- Function `tablewriter.NewWriter(os.Stdout)`. -/
def tablewriter.NewWriter : Table := { header := [], rows := [] }

/-- Method `table.SetHeader`. -/
def Table.SetHeader (t : Table) (h : List String) : Table := { t with header := h }

/-- Method `table.Append`. -/
def Table.Append (t : Table) (row : List String) : Table :=
  { t with rows := t.rows ++ [row] }

/-- Method `table.Render`: the table as it stands goes to standard output. -/
def Table.Render (t : Table) (w : World) : World :=
  { w with stdout := w.stdout ++ [.table t] }

/-- Outcome of `file.Write(data)`: everything written and a nil error, or the
first `n` characters written and an error. -/
inductive WriteOutcome
  | ok
  | short (n : Nat) (e : GoError)
  deriving DecidableEq, Repr

/-! ## JSON documents and `json.MarshalIndent` -/

/-- A JSON document.  Numbers keep their token; object members keep their order. -/
inductive JVal
  | null
  | bool (b : Bool)
  | num (tok : String)
  | str (s : String)
  | arr (xs : List JVal)
  | obj (kvs : List (String × JVal))

/-- Encoders of `encoding/json` for the five gopsutil record types.  The
records are declared outside this repository, so what each one encodes to is a
parameter; an encoder fails where `encoding/json` does (a NaN or infinite
`float64`). -/
structure JsonEncoders where
  cpu : cpu.InfoStat → Except GoError JVal
  mem : mem.VirtualMemoryStat → Except GoError JVal
  disk : disk.UsageStat → Except GoError JVal
  host : host.InfoStat → Except GoError JVal
  net : net.IOCountersStat → Except GoError JVal

/-- Encodes the elements of a list in order; the first failure is the result. -/
def encodeAll {α : Type} (enc : α → Except GoError JVal) : List α → Except GoError (List JVal)
  | [] => .ok []
  | x :: xs =>
    match enc x with
    | .error e => .error e
    | .ok v =>
      match encodeAll enc xs with
      | .error e => .error e
      | .ok vs => .ok (v :: vs)

/-- How `encoding/json` encodes a slice: `null` for the nil slice, else an array. -/
def encodeSlice {α : Type} (enc : α → Except GoError JVal) : Slice α → Except GoError JVal
  | none => .ok .null
  | some xs =>
    match encodeAll enc xs with
    | .error e => .error e
    | .ok vs => .ok (.arr vs)

/-- How `encoding/json` encodes a pointer: `null` for nil, else what it points to. -/
def encodePtr {α : Type} (enc : α → Except GoError JVal) : Ptr α → Except GoError JVal
  | none => .ok .null
  | some x => enc x

/-- How `encoding/json` encodes a `SysInfo`: one member per field, named by the
field's `json` tag, in declaration order; no tag has `omitempty`. -/
def encodeSysInfo (j : JsonEncoders) (s : SysInfo) : Except GoError JVal :=
  match encodeSlice j.cpu s.CPUInfo with
  | .error e => .error e
  | .ok c =>
  match encodePtr j.mem s.VmStat with
  | .error e => .error e
  | .ok m =>
  match encodePtr j.disk s.DiscStat with
  | .error e => .error e
  | .ok d =>
  match encodePtr j.host s.HostStat with
  | .error e => .error e
  | .ok h =>
  match encodeSlice j.net s.NetStat with
  | .error e => .error e
  | .ok n =>
    .ok (.obj [("cpu_info", c), ("mem_info", m), ("disk_info", d),
      ("host_info", h), ("net_info", n)])

/-- Four lowercase hexadecimal digits of `n`. -/
def hex4 (n : Nat) : List Char :=
  [Nat.digitChar (n / 4096 % 16), Nat.digitChar (n / 256 % 16),
   Nat.digitChar (n / 16 % 16), Nat.digitChar (n % 16)]

/-- How `encoding/json` writes one character inside a string literal (HTML
escaping on, as `json.MarshalIndent` has it).  Control characters other than
newline, return and tab are written `\u00XX`; Go releases that write backspace
and form feed as `\b` and `\f` produce text `unescape` reads the same way. -/
def escapeChar (c : Char) : List Char :=
  if c = '"' then ['\\', '"']
  else if c = '\\' then ['\\', '\\']
  else if c = '\n' then ['\\', 'n']
  else if c = '\r' then ['\\', 'r']
  else if c = '\t' then ['\\', 't']
  else if c.toNat < 32 ∨ c = '<' ∨ c = '>' ∨ c = '&' ∨ c.toNat = 8232 ∨ c.toNat = 8233 then
    '\\' :: 'u' :: hex4 c.toNat
  else [c]

/-- A string literal as `encoding/json` writes it. -/
def quote (s : String) : List Char :=
  '"' :: (s.data.flatMap escapeChar ++ ['"'])

/-- Line break followed by `depth` indents of two spaces. -/
def newline (depth : Nat) : List Char :=
  '\n' :: List.replicate (2 * depth) ' '

mutual
/-- Text of a document at nesting `depth`, in the layout of
`json.MarshalIndent(v, "", "  ")`. -/
def render (depth : Nat) : JVal → List Char
  | .null => "null".data
  | .bool true => "true".data
  | .bool false => "false".data
  | .num tok => tok.data
  | .str s => quote s
  | .arr [] => ['[', ']']
  | .arr (x :: xs) =>
    '[' :: (newline (depth + 1) ++ render (depth + 1) x ++
      renderItems (depth + 1) xs ++ newline depth ++ [']'])
  | .obj [] => ['{', '}']
  | .obj ((k, v) :: kvs) =>
    '{' :: (newline (depth + 1) ++ quote k ++ ':' :: ' ' :: render (depth + 1) v ++
      renderMembers (depth + 1) kvs ++ newline depth ++ ['}'])
/-- The second and later items of an array, each after a comma and a line break. -/
def renderItems (depth : Nat) : List JVal → List Char
  | [] => []
  | x :: xs => ',' :: (newline depth ++ render depth x ++ renderItems depth xs)
/-- The second and later members of an object. -/
def renderMembers (depth : Nat) : List (String × JVal) → List Char
  | [] => []
  | (k, v) :: kvs =>
    ',' :: (newline depth ++ quote k ++ ':' :: ' ' :: render depth v ++
      renderMembers depth kvs)
end

/-- Function `json.MarshalIndent(s, "", "  ")` at type `*SysInfo`. -/
def MarshalIndent (j : JsonEncoders) (s : SysInfo) : Except GoError String :=
  match encodeSysInfo j s with
  | .error e => .error e
  | .ok v => .ok (String.mk (render 0 v))

/-! ## `json.Unmarshal` into a `SysInfo` -/

/-- The zero value of `cpu.InfoStat`. -/
def cpu.InfoStat.zero : cpu.InfoStat :=
  { CPU := 0, ModelName := "", Cores := 0, Mhz := .finite false 0 0 }

/-- The zero value of `mem.VirtualMemoryStat`. -/
def mem.VirtualMemoryStat.zero : mem.VirtualMemoryStat :=
  { Total := 0, Available := 0, Used := 0, UsedPercent := .finite false 0 0 }

/-- The zero value of `disk.UsageStat`. -/
def disk.UsageStat.zero : disk.UsageStat :=
  { Path := "", Total := 0, Free := 0, Used := 0, UsedPercent := .finite false 0 0 }

/-- The zero value of `host.InfoStat`. -/
def host.InfoStat.zero : host.InfoStat :=
  { Hostname := "", OS := "", Platform := "", PlatformFamily := "", PlatformVersion := "",
    KernelVersion := "", KernelArch := "", Uptime := 0, BootTime := 0, Procs := 0 }

/-- The zero value of `net.IOCountersStat`. -/
def net.IOCountersStat.zero : net.IOCountersStat :=
  { Name := "", BytesSent := 0, BytesRecv := 0, PacketsSent := 0, PacketsRecv := 0 }

/-- JSON whitespace. -/
def isWs (c : Char) : Bool := c = ' ' || c = '\n' || c = '\r' || c = '\t'

/-- The text after leading whitespace. -/
def skipWs : List Char → List Char
  | [] => []
  | c :: cs => if isWs c then skipWs cs else c :: cs

/-- Characters a number token is made of. -/
def isNumChar (c : Char) : Bool :=
  c.isDigit || c = '-' || c = '+' || c = '.' || c = 'e' || c = 'E'

/-- The longest prefix of number characters, and what follows it. -/
def spanNum : List Char → List Char × List Char
  | [] => ([], [])
  | c :: cs =>
    if isNumChar c then ((spanNum cs).1.cons c, (spanNum cs).2) else ([], c :: cs)

/-- The exponent part of a number token, or nothing. -/
def validExp : List Char → Bool
  | [] => true
  | c :: cs =>
    (c = 'e' || c = 'E') &&
      (match cs with
       | '+' :: ds => isDigits ds
       | '-' :: ds => isDigits ds
       | ds => isDigits ds)

/-- The fraction and exponent parts of a number token, or nothing. -/
def validFrac : List Char → Bool
  | '.' :: cs => !(cs.takeWhile Char.isDigit).isEmpty && validExp (cs.dropWhile Char.isDigit)
  | cs => validExp cs

/-- A number token as the JSON grammar has it: an optional `-`, an integer part
without a leading zero, an optional fraction, an optional exponent. -/
def validNumber (cs : List Char) : Bool :=
  match dropSign cs with
  | [] => false
  | '0' :: rest => validFrac rest
  | c :: rest => c.isDigit && validFrac (rest.dropWhile Char.isDigit)

/-- Value of a hexadecimal digit. -/
def hexVal (c : Char) : Option Nat :=
  if c.isDigit then some (c.toNat - 48)
  else if 97 ≤ c.toNat ∧ c.toNat ≤ 102 then some (c.toNat - 87)
  else if 65 ≤ c.toNat ∧ c.toNat ≤ 70 then some (c.toNat - 55)
  else none

/-- The code unit the four hexadecimal digits of a `\uXXXX` escape denote. -/
def hexCode (a b c d : Char) : Option Nat :=
  match hexVal a, hexVal b, hexVal c, hexVal d with
  | some x, some y, some z, some t => some (((x * 16 + y) * 16 + z) * 16 + t)
  | _, _, _, _ => none

/-- The code unit is a UTF-16 surrogate. -/
def isSurrogate (n : Nat) : Bool := 55296 ≤ n && n < 57344

/-- The character a high and a low surrogate make together (`utf16.DecodeRune`);
nothing when the two are not such a pair. -/
def joinSurrogates (hi lo : Nat) : Option Char :=
  if 55296 ≤ hi ∧ hi < 56320 ∧ 56320 ≤ lo ∧ lo < 57344 then
    some (Char.ofNat (65536 + (hi - 55296) * 1024 + (lo - 56320)))
  else none

/-- The character a one-letter escape denotes. -/
def unescape (e : Char) : Option Char :=
  if e = '"' then some '"'
  else if e = '\\' then some '\\'
  else if e = '/' then some '/'
  else if e = 'n' then some '\n'
  else if e = 'r' then some '\r'
  else if e = 't' then some '\t'
  else if e = 'b' then some (Char.ofNat 8)
  else if e = 'f' then some (Char.ofNat 12)
  else none

/-- Puts a character read in front of what the rest of the literal reads as. -/
def consChar (c : Char) : Option (List Char × List Char) → Option (List Char × List Char)
  | some (xs, out) => some (c :: xs, out)
  | none => none

/-- What was read, after U+FFFD for a pending surrogate that found no partner. -/
def flush (pending : Option Nat) (r : Option (List Char × List Char)) :
    Option (List Char × List Char) :=
  match pending with
  | some _ => consChar (Char.ofNat 65533) r
  | none => r

/-- Reads the inside of a string literal up to and including the closing
quote: the characters denoted, and the text after the quote.  `pending` is an
escaped surrogate just read: followed at once by the escaped other half of its
pair it reads as the one character the pair denotes, otherwise as U+FFFD. -/
def parseChars (pending : Option Nat) : List Char → Option (List Char × List Char)
  | [] => none
  | c :: rest =>
    if c = '"' then flush pending (some ([], rest))
    else if c = '\\' then
      match rest with
      | [] => none
      | e :: rest1 =>
        if e = 'u' then
          match rest1 with
          | a :: b :: c :: d :: rest2 =>
            match hexCode a b c d with
            | none => none
            | some n =>
              match pending.bind (fun hi => joinSurrogates hi n) with
              | some ch => consChar ch (parseChars none rest2)
              | none =>
                flush pending
                  (if isSurrogate n then parseChars (some n) rest2
                   else consChar (Char.ofNat n) (parseChars none rest2))
          | _ => none
        else
          match unescape e with
          | some x => flush pending (consChar x (parseChars none rest1))
          | none => none
    else if c.toNat < 32 then none
    else flush pending (consChar c (parseChars none rest))

mutual
/-- Reads one value, with `fuel` bounding the depth of the recursion: the
value and the text after it. -/
def parseValue : Nat → List Char → Option (JVal × List Char)
  | 0, _ => none
  | fuel + 1, cs =>
    match skipWs cs with
    | [] => none
    | c :: rest =>
      if isNumChar c then
        if validNumber (spanNum (c :: rest)).1 then
          some (.num (String.mk (spanNum (c :: rest)).1), (spanNum (c :: rest)).2)
        else none
      else if c = '"' then
        match parseChars none rest with
        | some (s, out) => some (.str (String.mk s), out)
        | none => none
      else if c = '[' then
        match skipWs rest with
        | [] => none
        | c1 :: out =>
          if c1 = ']' then some (.arr [], out)
          else
            match parseValue fuel rest with
            | none => none
            | some (x, rest1) =>
              match parseItems fuel rest1 with
              | none => none
              | some (xs, out) => some (.arr (x :: xs), out)
      else if c = '{' then
        match skipWs rest with
        | [] => none
        | c1 :: out =>
          if c1 = '}' then some (.obj [], out)
          else
            match parseMember fuel rest with
            | none => none
            | some (kv, rest1) =>
              match parseMembers fuel rest1 with
              | none => none
              | some (kvs, out) => some (.obj (kv :: kvs), out)
      else
        match c :: rest with
        | 'n' :: 'u' :: 'l' :: 'l' :: out => some (.null, out)
        | 't' :: 'r' :: 'u' :: 'e' :: out => some (.bool true, out)
        | 'f' :: 'a' :: 'l' :: 's' :: 'e' :: out => some (.bool false, out)
        | _ => none
/-- Reads the rest of an array after an item: `]`, or `,` and further items. -/
def parseItems : Nat → List Char → Option (List JVal × List Char)
  | 0, _ => none
  | fuel + 1, cs =>
    match skipWs cs with
    | [] => none
    | c :: rest =>
      if c = ']' then some ([], rest)
      else if c = ',' then
        match parseValue fuel rest with
        | none => none
        | some (x, rest1) =>
          match parseItems fuel rest1 with
          | none => none
          | some (xs, out) => some (x :: xs, out)
      else none
/-- Reads one member: a string literal, `:`, a value. -/
def parseMember : Nat → List Char → Option ((String × JVal) × List Char)
  | 0, _ => none
  | fuel + 1, cs =>
    match skipWs cs with
    | [] => none
    | c :: rest =>
      if c = '"' then
        match parseChars none rest with
        | none => none
        | some (k, rest1) =>
          match skipWs rest1 with
          | [] => none
          | c1 :: rest2 =>
            if c1 = ':' then
              match parseValue fuel rest2 with
              | none => none
              | some (v, out) => some ((String.mk k, v), out)
            else none
      else none
/-- Reads the rest of an object after a member: `}`, or `,` and further members. -/
def parseMembers : Nat → List Char → Option (List (String × JVal) × List Char)
  | 0, _ => none
  | fuel + 1, cs =>
    match skipWs cs with
    | [] => none
    | c :: rest =>
      if c = '}' then some ([], rest)
      else if c = ',' then
        match parseMember fuel rest with
        | none => none
        | some (kv, rest1) =>
          match parseMembers fuel rest1 with
          | none => none
          | some (kvs, out) => some (kv :: kvs, out)
      else none
end

/-- Reads a whole text as one JSON document; nothing but whitespace may follow
the value. -/
def parseJSON (text : String) : Option JVal :=
  match parseValue (text.length + 1) text.data with
  | none => none
  | some (v, rest) => if (skipWs rest).isEmpty then some v else none

mutual
/-- Every number token in the document is a number of the JSON grammar. -/
def wellFormed : JVal → Bool
  | .num tok => validNumber tok.data && tok.data.all isNumChar
  | .arr xs => wellFormedItems xs
  | .obj kvs => wellFormedMembers kvs
  | _ => true
/-- Every item is well formed. -/
def wellFormedItems : List JVal → Bool
  | [] => true
  | x :: xs => wellFormed x && wellFormedItems xs
/-- Every member value is well formed. -/
def wellFormedMembers : List (String × JVal) → Bool
  | [] => true
  | (_, v) :: kvs => wellFormed v && wellFormedMembers kvs
end

mutual
/-- Bound on the recursion depth `parseValue` needs to read the document back. -/
def JVal.size : JVal → Nat
  | .arr xs => 1 + sizeItems xs
  | .obj kvs => 1 + sizeMembers kvs
  | _ => 1
/-- The same bound for the items after the first. -/
def sizeItems : List JVal → Nat
  | [] => 1
  | x :: xs => 1 + x.size + sizeItems xs
/-- The same bound for the members after the first. -/
def sizeMembers : List (String × JVal) → Nat
  | [] => 1
  | (_, v) :: kvs => 2 + v.size + sizeMembers kvs
end

/-- The text that follows a value does not continue a number token. -/
def endsToken : List Char → Bool
  | [] => true
  | c :: _ => !isNumChar c

/-- What reading back at depth bound `fuel` achieves for all four readers. -/
def ReadsBack (fuel : Nat) : Prop :=
  (∀ (v : JVal) (d : Nat) (rest : List Char), wellFormed v = true → v.size ≤ fuel →
    endsToken rest = true → parseValue fuel (render d v ++ rest) = some (v, rest)) ∧
  (∀ (xs : List JVal) (d : Nat) (rest : List Char), wellFormedItems xs = true →
    sizeItems xs ≤ fuel →
    parseItems fuel (renderItems (d + 1) xs ++ newline d ++ ']' :: rest) = some (xs, rest)) ∧
  (∀ (k : String) (v : JVal) (d : Nat) (rest : List Char), wellFormed v = true →
    1 + v.size ≤ fuel → endsToken rest = true →
    parseMember fuel (newline d ++ quote k ++ ':' :: ' ' :: render d v ++ rest) =
      some ((k, v), rest)) ∧
  (∀ (kvs : List (String × JVal)) (d : Nat) (rest : List Char),
    wellFormedMembers kvs = true → sizeMembers kvs ≤ fuel →
    parseMembers fuel (renderMembers (d + 1) kvs ++ newline d ++ '}' :: rest) =
      some (kvs, rest))

/-- The depth bound of a document is at most the length of its text. -/
def SizeBound (n : Nat) : Prop :=
  (∀ (v : JVal) (d : Nat), wellFormed v = true → v.size ≤ n →
    v.size ≤ (render d v).length) ∧
  (∀ (xs : List JVal) (d : Nat), wellFormedItems xs = true → sizeItems xs ≤ n →
    sizeItems xs ≤ (renderItems d xs).length + 1) ∧
  (∀ (kvs : List (String × JVal)) (d : Nat), wellFormedMembers kvs = true →
    sizeMembers kvs ≤ n → sizeMembers kvs ≤ (renderMembers d kvs).length + 1)

/-- A check on the outcome of an encoder: it holds of a failure. -/
def okWith (p : JVal → Bool) : Except GoError JVal → Bool
  | .ok v => p v
  | .error _ => true

/-- A check on what a pointer points to: it holds of the nil pointer. -/
def allPtr {α : Type} (p : α → Bool) : Ptr α → Bool
  | none => true
  | some x => p x

/-- Every record of the snapshot that encodes at all encodes to a document
whose number tokens are numbers of the JSON grammar. -/
def encodersWellFormed (j : JsonEncoders) (s : SysInfo) : Bool :=
  (elems s.CPUInfo).all (fun x => okWith wellFormed (j.cpu x)) &&
  allPtr (fun x => okWith wellFormed (j.mem x)) s.VmStat &&
  allPtr (fun x => okWith wellFormed (j.disk x)) s.DiscStat &&
  allPtr (fun x => okWith wellFormed (j.host x)) s.HostStat &&
  (elems s.NetStat).all (fun x => okWith wellFormed (j.net x))

/-- What the outside world answers during one run. -/
structure Env where
  /-- result of `cpu.Info()` -/
  cpuInfo : Query (Slice cpu.InfoStat)
  /-- result of `mem.VirtualMemory()` -/
  virtualMemory : Query (Ptr mem.VirtualMemoryStat)
  /-- result of `disk.Usage(path)` -/
  diskUsage : String → Query (Ptr disk.UsageStat)
  /-- result of `host.Info()` -/
  hostInfo : Query (Ptr host.InfoStat)
  /-- result of `net.IOCounters(pernic)` -/
  netIOCounters : Bool → Query (Slice net.IOCountersStat)
  /-- value of `runtime.Version()` -/
  runtimeVersion : String
  /-- error of `os.Create("system-info.json")`, `none` when it succeeds -/
  osCreate : Option GoError
  /-- the `encoding/json` encoders of the gopsutil records -/
  json : JsonEncoders
  /-- outcome of `file.Write(data)` -/
  fileWrite : String → WriteOutcome

/-- The world at process start: nothing printed or logged, no handle, no
function entered; `file` is what `system-info.json` holds before the run. -/
def World.start (file : Option String) : World :=
  { stdout := [], stderr := [], file := file, handle := .absent, entered := [] }

/-! ## The collector (utils.go 27-83) -/

/-- Method `(*SysInfo).GetCPUInfo`. -/
def GetCPUInfo (env : Env) (s : SysInfo) (w : World) : Run SysInfo :=
  let w := enter .GetCPUInfo w
  let cpus : Slice cpu.InfoStat := none
  let r := env.cpuInfo
  match r.err with
  | some err => logFatalf ("Error fetching CPU info: " ++ err) w
  | none =>
    let cpus := goAppend cpus r.val
    .ret { s with CPUInfo := cpus } w

/-- Method `(*SysInfo).GetVmStat`. -/
def GetVmStat (env : Env) (s : SysInfo) (w : World) : Run SysInfo :=
  let w := enter .GetVmStat w
  let r := env.virtualMemory
  match r.err with
  | some err => logFatalf ("Error fetching memory info: " ++ err) w
  | none => .ret { s with VmStat := r.val } w

/-- Method `(*SysInfo).GetDiscStat`. -/
def GetDiscStat (env : Env) (s : SysInfo) (w : World) : Run SysInfo :=
  let w := enter .GetDiscStat w
  let r := env.diskUsage "/"
  match r.err with
  | some err => logFatalf ("Error fetching disk info: " ++ err) w
  | none => .ret { s with DiscStat := r.val } w

/-- Method `(*SysInfo).GetHostStat`. -/
def GetHostStat (env : Env) (s : SysInfo) (w : World) : Run SysInfo :=
  let w := enter .GetHostStat w
  let r := env.hostInfo
  match r.err with
  | some err => logFatalf ("Error fetching host info: " ++ err) w
  | none => .ret { s with HostStat := r.val } w

/-- Method `(*SysInfo).GetNetStat`. -/
def GetNetStat (env : Env) (s : SysInfo) (w : World) : Run SysInfo :=
  let w := enter .GetNetStat w
  let nets : Slice net.IOCountersStat := none
  let r := env.netIOCounters true
  match r.err with
  | some err => logFatalf ("Error fetching network info: " ++ err) w
  | none =>
    let nets := goAppend nets r.val
    .ret { s with NetStat := nets } w

/-! ## The renderer (utils.go 85-157) -/

/-- Row appended to the CPU table for one element of `s.CPUInfo` (utils.go 108-113). -/
def cpuRow (c : cpu.InfoStat) : List String :=
  [sprintfD c.CPU, c.ModelName, sprintfD c.Cores, sprintfF2 c.Mhz]

/-- Row appended to the network table for one element of `s.NetStat` (utils.go 144-150). -/
def netRow (n : net.IOCountersStat) : List String :=
  [n.Name, sprintfD n.BytesSent, sprintfD n.BytesRecv, sprintfD n.PacketsSent,
   sprintfD n.PacketsRecv]

/-- Row appended to the memory table (utils.go 120-125). -/
def memRow (vm : mem.VirtualMemoryStat) : List String :=
  [sprintfD vm.Total, sprintfD vm.Available, sprintfD vm.Used,
   sprintfF2 vm.UsedPercent ++ "%"]

/-- Row appended to the disk table (utils.go 131-137). -/
def diskRow (disc : disk.UsageStat) : List String :=
  [disc.Path, sprintfD disc.Total, sprintfD disc.Free, sprintfD disc.Used,
   sprintfF2 disc.UsedPercent ++ "%"]

/-- Function `PrintSystemInfo`.  The three pointer fields are dereferenced
where the source does, host first, then memory, then disk; a nil one panics
there, after what was printed before. -/
def PrintSystemInfo (env : Env) (s : SysInfo) (w : World) : Run Unit :=
  let w := enter .PrintSystemInfo w
  let w := colorPrintln [.FgCyan, .Bold] "\nSystem Information" w
  let w := colorPrintln [.FgGreen] "\nHost Information:" w
  let table := tablewriter.NewWriter
  let table := table.SetHeader ["Property", "Value"]
  match s.HostStat with
  | none => .panic w
  | some host =>
  let table := table.Append ["Hostname", host.Hostname]
  let table := table.Append ["OS", host.OS]
  let table := table.Append ["Platform", host.Platform]
  let table := table.Append ["Platform Family", host.PlatformFamily]
  let table := table.Append ["Platform Version", host.PlatformVersion]
  let table := table.Append ["Kernel Version", host.KernelVersion]
  let table := table.Append ["Kernel Arch", host.KernelArch]
  let table := table.Append ["Uptime", sprintfD host.Uptime ++ " seconds"]
  let table := table.Append ["Boot Time", sprintfD host.BootTime]
  let table := table.Append ["Procs", sprintfD host.Procs]
  let w := table.Render w
  let w := colorPrintln [.FgGreen] "\nCPU Information:" w
  let table := tablewriter.NewWriter
  let table := table.SetHeader ["CPU", "Model Name", "Cores", "Mhz"]
  let table := (elems s.CPUInfo).foldl (fun t cpu => t.Append (cpuRow cpu)) table
  let w := table.Render w
  let w := colorPrintln [.FgGreen] "\nMemory Information:" w
  let table := tablewriter.NewWriter
  let table := table.SetHeader ["Total", "Available", "Used", "Used Percent"]
  match s.VmStat with
  | none => .panic w
  | some vm =>
  let table := table.Append (memRow vm)
  let w := table.Render w
  let w := colorPrintln [.FgGreen] "\nDisk Information:" w
  let table := tablewriter.NewWriter
  let table := table.SetHeader ["Path", "Total", "Free", "Used", "Used Percent"]
  match s.DiscStat with
  | none => .panic w
  | some disc =>
  let table := table.Append (diskRow disc)
  let w := table.Render w
  let w := colorPrintln [.FgGreen] "\nNetwork Information:" w
  let table := tablewriter.NewWriter
  let table := table.SetHeader
    ["Name", "Bytes Sent", "Bytes Received", "Packets Sent", "Packets Received"]
  let table := (elems s.NetStat).foldl (fun t net => t.Append (netRow net)) table
  let w := table.Render w
  let w := colorPrintln [.FgGreen] "\nGo Version:" w
  let w := colorPrintf [.FgYellow] (env.runtimeVersion ++ "\n") w
  .ret () w

/-- The ten rows of the host table, as `PrintSystemInfo` appends them (utils.go 92-101). -/
def hostRows (host : host.InfoStat) : List (List String) :=
  [["Hostname", host.Hostname], ["OS", host.OS], ["Platform", host.Platform],
   ["Platform Family", host.PlatformFamily], ["Platform Version", host.PlatformVersion],
   ["Kernel Version", host.KernelVersion], ["Kernel Arch", host.KernelArch],
   ["Uptime", sprintfD host.Uptime ++ " seconds"], ["Boot Time", sprintfD host.BootTime],
   ["Procs", sprintfD host.Procs]]

/-- A section header: a line printed in green alone (`color.New(color.FgGreen).Println`). -/
def isSectionHeader : Out → Bool
  | .colored [.FgGreen] _ => true
  | _ => false

/-- The rendering of a table. -/
def isTable : Out → Bool
  | .table _ => true
  | _ => false

/-- Every section header in the output is immediately followed by a table. -/
def headersFollowedByTable : List Out → Bool
  | [] => true
  | [o] => !isSectionHeader o
  | o :: o' :: rest => (!isSectionHeader o || isTable o') && headersFollowedByTable (o' :: rest)

/-- The tables rendered, in order. -/
def tablesOf : List Out → List Table
  | [] => []
  | .table t :: rest => t :: tablesOf rest
  | .colored _ _ :: rest => tablesOf rest

/-- A plain decimal integer: digits, after an optional `-`, and nothing else. -/
def isPlainInt (s : String) : Bool := isDigits (dropSign s.data)

/-- A decimal with exactly two digits after the point: an optional `-`, digits,
`.`, two digits. -/
def isFixed2 (s : String) : Bool :=
  match (dropSign s.data).reverse with
  | d2 :: d1 :: '.' :: ds => d1.isDigit && d2.isDigit && isDigits ds
  | _ => false

/-- A two-decimal value followed by `%` and nothing else. -/
def isPercent2 (s : String) : Bool :=
  match s.data.reverse with
  | '%' :: cs => isFixed2 (String.mk cs.reverse)
  | _ => false

/-- The value is a number, not NaN or an infinity. -/
def Float64.isFinite : Float64 → Bool
  | .finite _ _ _ => true
  | _ => false

/-- The integer a cell reads as: decimal digits after an optional `-`. -/
def readInt (s : String) : Option Int :=
  match s.data with
  | '-' :: cs => (digitsToNat cs).map fun n => -(n : Int)
  | cs => (digitsToNat cs).map Int.ofNat

/-- The sign and the number of hundredths a two-decimal cell reads as:
`-12.50` reads as negative, 1250 hundredths. -/
def readFixed2 (s : String) : Option (Bool × Nat) :=
  match (dropSign s.data).reverse with
  | d2 :: d1 :: '.' :: ds =>
    match digitsToNat ds.reverse, digitsToNat [d1, d2] with
    | some i, some f => some (s.data.head? == some '-', 100 * i + f)
    | _, _ => none
  | _ => none

/-- The cell is a plain decimal integer and reads as `n`. -/
def ShowsInt (cell : String) (n : Int) : Prop :=
  isPlainInt cell = true ∧ readInt cell = some n

/-- The cell shows `x` with exactly two decimals: for a finite `x` it has the
two-decimal shape, the sign of `x`, and reads as a number of hundredths within
half a hundredth of the magnitude of `x`; NaN and the infinities are spelled
out. -/
def ShowsFixed2 (cell : String) : Float64 → Prop
  | .finite neg mant exp =>
    isFixed2 cell = true ∧
    ∃ h : Nat, readFixed2 cell = some (neg, h) ∧
      |100 * (mant : ℚ) * (2 : ℚ) ^ exp - (h : ℚ)| ≤ 1 / 2
  | .nan => cell = "NaN"
  | .inf false => cell = "+Inf"
  | .inf true => cell = "-Inf"

/-! ## The persister (utils.go 159-181) -/

/-- Method `file.Close()`, which the `defer` runs when the function returns. -/
def fileClose (w : World) : World := { w with handle := .closed }

/-- Function `SaveSystemInfoToFile`.  `os.Create` creates the file or truncates
it to empty.  The three error branches end in `log.Fatalf`, that is in
`os.Exit(1)`: the process ends there and the deferred `file.Close()` runs only
on the branch that returns. -/
def SaveSystemInfoToFile (env : Env) (s : SysInfo) (w : World) : Run Unit :=
  let w := enter .SaveSystemInfoToFile w
  match env.osCreate with
  | some err => logFatalf ("Error creating JSON file: " ++ err) w
  | none =>
  let w := { w with file := some "", handle := .opened }
  match MarshalIndent env.json s with
  | .error err => logFatalf ("Error marshaling JSON: " ++ err) w
  | .ok jsonData =>
  match env.fileWrite jsonData with
  | .short n err =>
    let w := { w with file := some (String.mk (jsonData.data.take n)) }
    logFatalf ("Error writing JSON data to file: " ++ err) w
  | .ok =>
    let w := { w with file := some jsonData }
    let w := colorPrintf [.FgGreen] "\nJSON data saved to system-info.json\n" w
    .ret () (fileClose w)

/-! ## The program (main.go 7-18) -/

/-- Function `main`. -/
def main (env : Env) (w : World) : Run Unit :=
  let systemInfo := SysInfo.zero
  (GetCPUInfo env systemInfo w).bind fun systemInfo w =>
  (GetVmStat env systemInfo w).bind fun systemInfo w =>
  (GetDiscStat env systemInfo w).bind fun systemInfo w =>
  (GetHostStat env systemInfo w).bind fun systemInfo w =>
  (GetNetStat env systemInfo w).bind fun systemInfo w =>
  (PrintSystemInfo env systemInfo w).bind fun _ w =>
  SaveSystemInfoToFile env systemInfo w

/-- The five collection calls of `main` in order (main.go 8-14), from the zero snapshot. -/
def collect (env : Env) (w : World) : Run SysInfo :=
  (GetCPUInfo env SysInfo.zero w).bind fun systemInfo w =>
  (GetVmStat env systemInfo w).bind fun systemInfo w =>
  (GetDiscStat env systemInfo w).bind fun systemInfo w =>
  (GetHostStat env systemInfo w).bind fun systemInfo w =>
  GetNetStat env systemInfo w

/-! ## Sample inputs -/

/-- One CPU record: index 0, four cores, 2400 MHz. -/
def sampleCPU : cpu.InfoStat :=
  { CPU := 0, ModelName := "Example CPU", Cores := 4, Mhz := .finite false 2400 0 }

/-- Memory record with total 1000, used 500, that is 50 percent. -/
def sampleMem : mem.VirtualMemoryStat :=
  { Total := 1000, Available := 500, Used := 500, UsedPercent := .finite false 50 0 }

/-- Disk record for `/`, 12 percent used. -/
def sampleDisk : disk.UsageStat :=
  { Path := "/", Total := 8000, Free := 7000, Used := 1000,
    UsedPercent := .finite false 12 0 }

/-- Host record. -/
def sampleHost : host.InfoStat :=
  { Hostname := "box", OS := "linux", Platform := "debian", PlatformFamily := "debian",
    PlatformVersion := "12", KernelVersion := "6.1", KernelArch := "x86_64",
    Uptime := 5, BootTime := 1700000000, Procs := 42 }

/-- One network interface record. -/
def sampleNet : net.IOCountersStat :=
  { Name := "eth0", BytesSent := 10, BytesRecv := 20, PacketsSent := 1, PacketsRecv := 2 }

/-- A populated snapshot. -/
def sampleInfo : SysInfo :=
  { CPUInfo := some [sampleCPU], VmStat := some sampleMem, DiscStat := some sampleDisk,
    HostStat := some sampleHost, NetStat := some [sampleNet] }

/-- Sample encoding of a `float64`: a non-negative integral value as its
digits.  It refuses every other value, as `encoding/json` refuses NaN and the
infinities. -/
def sampleFloat : Float64 → Except GoError JVal
  | .finite false m (Int.ofNat 0) => .ok (.num (toString m))
  | _ => .error "json: unsupported value"

/-- Sample encoders: each record as an object of the fields modelled here. -/
def sampleEncoders : JsonEncoders where
  cpu c :=
    match sampleFloat c.Mhz with
    | .error e => .error e
    | .ok f => .ok (.obj [("cpu", .num (sprintfD c.CPU)), ("modelName", .str c.ModelName),
        ("cores", .num (sprintfD c.Cores)), ("mhz", f)])
  mem m :=
    match sampleFloat m.UsedPercent with
    | .error e => .error e
    | .ok f => .ok (.obj [("total", .num (sprintfD m.Total)),
        ("available", .num (sprintfD m.Available)), ("used", .num (sprintfD m.Used)),
        ("usedPercent", f)])
  disk d :=
    match sampleFloat d.UsedPercent with
    | .error e => .error e
    | .ok f => .ok (.obj [("path", .str d.Path), ("total", .num (sprintfD d.Total)),
        ("free", .num (sprintfD d.Free)), ("used", .num (sprintfD d.Used)),
        ("usedPercent", f)])
  host h :=
    .ok (.obj [("hostname", .str h.Hostname), ("uptime", .num (sprintfD h.Uptime)),
      ("bootTime", .num (sprintfD h.BootTime)), ("procs", .num (sprintfD h.Procs)),
      ("os", .str h.OS), ("platform", .str h.Platform),
      ("platformFamily", .str h.PlatformFamily),
      ("platformVersion", .str h.PlatformVersion),
      ("kernelVersion", .str h.KernelVersion), ("kernelArch", .str h.KernelArch)])
  net n :=
    .ok (.obj [("name", .str n.Name), ("bytesSent", .num (sprintfD n.BytesSent)),
      ("bytesRecv", .num (sprintfD n.BytesRecv)),
      ("packetsSent", .num (sprintfD n.PacketsSent)),
      ("packetsRecv", .num (sprintfD n.PacketsRecv))])

/-- A run in which every query, `os.Create` and `file.Write` succeed. -/
def sampleEnv : Env :=
  { cpuInfo := { val := some [sampleCPU], err := none }
    virtualMemory := { val := some sampleMem, err := none }
    diskUsage := fun _ => { val := some sampleDisk, err := none }
    hostInfo := { val := some sampleHost, err := none }
    netIOCounters := fun _ => { val := some [sampleNet], err := none }
    runtimeVersion := "go1.21.0"
    osCreate := none
    json := sampleEncoders
    fileWrite := fun _ => .ok }

/-- As `sampleEnv`, but `mem.VirtualMemory()` fails. -/
def memFailEnv : Env :=
  { sampleEnv with virtualMemory := { val := none, err := some "not implemented yet" } }

/-- As `sampleEnv`, but `file.Write` stops after 10 characters. -/
def shortWriteEnv : Env :=
  { sampleEnv with fileWrite := fun _ => .short 10 "no space left on device" }

/-- A snapshot whose CPU clock speed is NaN, which `encoding/json` refuses. -/
def nanInfo : SysInfo :=
  { sampleInfo with CPUInfo := some [{ sampleCPU with Mhz := .nan }] }

/-- A snapshot with no CPU record (nil slice) and no network interface (empty slice). -/
def noListsInfo : SysInfo :=
  { sampleInfo with CPUInfo := none, NetStat := some [] }

/-- A snapshot whose memory used-percentage is NaN. -/
def nanPercentInfo : SysInfo :=
  { sampleInfo with VmStat := some { sampleMem with UsedPercent := .nan } }

/-! # Verified properties -/

/-! ## Fail-fast collection -/

/-- A query error ends `main` in `os.Exit(1)` before render and save are entered. -/
theorem main_exits_on_query_error (env : Env) (file : Option String)
    (h : env.cpuInfo.err ≠ none ∨ env.virtualMemory.err ≠ none ∨
      (env.diskUsage "/").err ≠ none ∨ env.hostInfo.err ≠ none ∨
      (env.netIOCounters true).err ≠ none) :
    (∃ w, main env (World.start file) = .exit 1 w) ∧
    Fn.SaveSystemInfoToFile ∉ (main env (World.start file)).world.entered ∧
    Fn.PrintSystemInfo ∉ (main env (World.start file)).world.entered ∧
    (main env (World.start file)).world.file = file ∧
    (main env (World.start file)).world.stdout = [] ∧
    (main env (World.start file)).world.handle = .absent := by
  unfold main GetCPUInfo GetVmStat GetDiscStat GetHostStat GetNetStat
  cases h1 : env.cpuInfo.err <;> cases h2 : env.virtualMemory.err <;>
    cases h3 : (env.diskUsage "/").err <;> cases h4 : env.hostInfo.err <;>
    cases h5 : (env.netIOCounters true).err <;>
    simp_all [Run.bind, logFatalf, enter, World.start, Run.world]

/-- C1: if any of the five OS queries returns an error, `main` ends in
`os.Exit(1)`, a non-zero status; neither `PrintSystemInfo` nor
`SaveSystemInfoToFile` is entered, nothing is printed, no handle is opened and
`system-info.json` is what it was before the run (absent stays absent). -/
theorem main_collection_failure (env : Env) (file : Option String)
    (h : env.cpuInfo.err ≠ none ∨ env.virtualMemory.err ≠ none ∨
      (env.diskUsage "/").err ≠ none ∨ env.hostInfo.err ≠ none ∨
      (env.netIOCounters true).err ≠ none) :
    (∃ w, main env (World.start file) = .exit 1 w) ∧
    (main env (World.start file)).status = 1 ∧
    (main env (World.start file)).status ≠ 0 ∧
    Fn.SaveSystemInfoToFile ∉ (main env (World.start file)).world.entered ∧
    Fn.PrintSystemInfo ∉ (main env (World.start file)).world.entered ∧
    (main env (World.start file)).world.file = file ∧
    (main env (World.start file)).world.stdout = [] ∧
    (main env (World.start file)).world.handle = .absent := by
  obtain ⟨⟨w, hw⟩, h2, h3, h4, h5, h6⟩ := main_exits_on_query_error env file h
  refine ⟨⟨w, hw⟩, ?_, ?_, h2, h3, h4, h5, h6⟩
  · rw [hw]; rfl
  · rw [hw]; simp [Run.status]

/-- Witness of `main_collection_failure`: a run in which the memory query fails. -/
theorem main_collection_failure_witness :
    (∃ w, main memFailEnv (World.start (some "old")) = .exit 1 w) ∧
    (main memFailEnv (World.start (some "old"))).status = 1 ∧
    (main memFailEnv (World.start (some "old"))).status ≠ 0 ∧
    Fn.SaveSystemInfoToFile ∉ (main memFailEnv (World.start (some "old"))).world.entered ∧
    Fn.PrintSystemInfo ∉ (main memFailEnv (World.start (some "old"))).world.entered ∧
    (main memFailEnv (World.start (some "old"))).world.file = some "old" ∧
    (main memFailEnv (World.start (some "old"))).world.stdout = [] ∧
    (main memFailEnv (World.start (some "old"))).world.handle = .absent :=
  main_collection_failure memFailEnv (some "old") (Or.inr (Or.inl (by decide)))

/-! ## What each collector changes -/

/-- Appending to the nil slice gives the elements appended, in order. -/
theorem elems_goAppend_nil {α : Type} (xs : Slice α) :
    elems (goAppend (none : Slice α) xs) = elems xs := by
  unfold goAppend
  cases h : elems xs <;> simp [elems]

/-- C10: each collector whose query returns a nil error returns to its caller
with exactly its own field set from the query result, the other four fields as
they were.  For the two list fields the new field holds the returned elements
in the returned order, whatever the field held before. -/
theorem collectors_set_own_field (env : Env) (s : SysInfo) (w : World) :
    (env.cpuInfo.err = none → ∃ s', GetCPUInfo env s w = .ret s' (enter .GetCPUInfo w) ∧
      elems s'.CPUInfo = elems env.cpuInfo.val ∧ s'.VmStat = s.VmStat ∧
      s'.DiscStat = s.DiscStat ∧ s'.HostStat = s.HostStat ∧ s'.NetStat = s.NetStat) ∧
    (env.virtualMemory.err = none → ∃ s', GetVmStat env s w = .ret s' (enter .GetVmStat w) ∧
      s'.VmStat = env.virtualMemory.val ∧ s'.CPUInfo = s.CPUInfo ∧
      s'.DiscStat = s.DiscStat ∧ s'.HostStat = s.HostStat ∧ s'.NetStat = s.NetStat) ∧
    ((env.diskUsage "/").err = none → ∃ s',
      GetDiscStat env s w = .ret s' (enter .GetDiscStat w) ∧
      s'.DiscStat = (env.diskUsage "/").val ∧ s'.CPUInfo = s.CPUInfo ∧
      s'.VmStat = s.VmStat ∧ s'.HostStat = s.HostStat ∧ s'.NetStat = s.NetStat) ∧
    (env.hostInfo.err = none → ∃ s', GetHostStat env s w = .ret s' (enter .GetHostStat w) ∧
      s'.HostStat = env.hostInfo.val ∧ s'.CPUInfo = s.CPUInfo ∧
      s'.VmStat = s.VmStat ∧ s'.DiscStat = s.DiscStat ∧ s'.NetStat = s.NetStat) ∧
    ((env.netIOCounters true).err = none → ∃ s',
      GetNetStat env s w = .ret s' (enter .GetNetStat w) ∧
      elems s'.NetStat = elems (env.netIOCounters true).val ∧ s'.CPUInfo = s.CPUInfo ∧
      s'.VmStat = s.VmStat ∧ s'.DiscStat = s.DiscStat ∧ s'.HostStat = s.HostStat) := by
  refine ⟨fun h => ?_, fun h => ?_, fun h => ?_, fun h => ?_, fun h => ?_⟩
  · exact ⟨{ s with CPUInfo := goAppend none env.cpuInfo.val }, by simp [GetCPUInfo, h],
      elems_goAppend_nil _, rfl, rfl, rfl, rfl⟩
  · exact ⟨{ s with VmStat := env.virtualMemory.val }, by simp [GetVmStat, h],
      rfl, rfl, rfl, rfl, rfl⟩
  · exact ⟨{ s with DiscStat := (env.diskUsage "/").val }, by simp [GetDiscStat, h],
      rfl, rfl, rfl, rfl, rfl⟩
  · exact ⟨{ s with HostStat := env.hostInfo.val }, by simp [GetHostStat, h],
      rfl, rfl, rfl, rfl, rfl⟩
  · exact ⟨{ s with NetStat := goAppend none (env.netIOCounters true).val },
      by simp [GetNetStat, h], elems_goAppend_nil _, rfl, rfl, rfl, rfl⟩

/-- Witness of `collectors_set_own_field`: `GetVmStat` on a snapshot that
already holds CPU records, with every query of `sampleEnv` succeeding. -/
theorem collectors_set_own_field_witness :
    (∃ s', GetCPUInfo sampleEnv sampleInfo (World.start none) =
        .ret s' (enter .GetCPUInfo (World.start none)) ∧
      elems s'.CPUInfo = [sampleCPU] ∧ s'.VmStat = sampleInfo.VmStat ∧
      s'.DiscStat = sampleInfo.DiscStat ∧ s'.HostStat = sampleInfo.HostStat ∧
      s'.NetStat = sampleInfo.NetStat) ∧
    (∃ s', GetVmStat sampleEnv { SysInfo.zero with CPUInfo := some [sampleCPU] }
        (World.start none) = .ret s' (enter .GetVmStat (World.start none)) ∧
      s'.VmStat = some sampleMem ∧ s'.CPUInfo = some [sampleCPU] ∧
      s'.DiscStat = none ∧ s'.HostStat = none ∧ s'.NetStat = none) :=
  ⟨(collectors_set_own_field sampleEnv sampleInfo (World.start none)).1 rfl,
   (collectors_set_own_field sampleEnv { SysInfo.zero with CPUInfo := some [sampleCPU] }
      (World.start none)).2.1 rfl⟩

/-! ## Rendering is reached only with a populated snapshot -/

/-- Sequencing is associative. -/
theorem Run.bind_assoc {α β γ : Type} (r : Run α) (f : α → World → Run β)
    (g : β → World → Run γ) :
    (r.bind f).bind g = r.bind fun a w => (f a w).bind g := by
  cases r <;> rfl

/-- The body of `main` is the five collection calls followed by render and save. -/
theorem main_eq_collect (env : Env) (w : World) :
    main env w = (collect env w).bind fun s w =>
      (PrintSystemInfo env s w).bind fun _ w => SaveSystemInfoToFile env s w := by
  simp only [main, collect, Run.bind_assoc]

/-- With the three pointer fields non-nil, `PrintSystemInfo` returns to its caller. -/
theorem PrintSystemInfo_returns (env : Env) (s : SysInfo) (w : World)
    (hv : s.VmStat ≠ none) (hd : s.DiscStat ≠ none) (hh : s.HostStat ≠ none) :
    ∃ w', PrintSystemInfo env s w = .ret () w' := by
  obtain ⟨vm, hvm⟩ := Option.ne_none_iff_exists'.mp hv
  obtain ⟨disc, hdisc⟩ := Option.ne_none_iff_exists'.mp hd
  obtain ⟨host, hhost⟩ := Option.ne_none_iff_exists'.mp hh
  simp [PrintSystemInfo, hvm, hdisc, hhost]

/-- C4: in a run of `main` that enters `PrintSystemInfo`, all five queries
returned a nil error, the collection returned a snapshot whose pointer fields
are the pointers the queries returned, and, the three gopsutil queries
returning a non-nil pointer whenever they return a nil error, these fields are
non-nil, `PrintSystemInfo` returns and `main` does not panic. -/
theorem print_reached_only_populated (env : Env) (file : Option String)
    (hmem : env.virtualMemory.err = none → env.virtualMemory.val ≠ none)
    (hdisk : (env.diskUsage "/").err = none → (env.diskUsage "/").val ≠ none)
    (hhost : env.hostInfo.err = none → env.hostInfo.val ≠ none)
    (hreach : Fn.PrintSystemInfo ∈ (main env (World.start file)).world.entered) :
    (env.cpuInfo.err = none ∧ env.virtualMemory.err = none ∧
      (env.diskUsage "/").err = none ∧ env.hostInfo.err = none ∧
      (env.netIOCounters true).err = none) ∧
    ∃ s w, collect env (World.start file) = .ret s w ∧
      s.VmStat = env.virtualMemory.val ∧ s.DiscStat = (env.diskUsage "/").val ∧
      s.HostStat = env.hostInfo.val ∧
      s.VmStat ≠ none ∧ s.DiscStat ≠ none ∧ s.HostStat ≠ none ∧
      (∃ w', PrintSystemInfo env s w = .ret () w') ∧
      ∀ w', main env (World.start file) ≠ .panic w' := by
  have hfail : ¬ (env.cpuInfo.err ≠ none ∨ env.virtualMemory.err ≠ none ∨
      (env.diskUsage "/").err ≠ none ∨ env.hostInfo.err ≠ none ∨
      (env.netIOCounters true).err ≠ none) := fun h =>
    (main_exits_on_query_error env file h).2.2.1 hreach
  simp only [not_or, not_not] at hfail
  obtain ⟨h1, h2, h3, h4, h5⟩ := hfail
  refine ⟨⟨h1, h2, h3, h4, h5⟩, ?_⟩
  have hc : collect env (World.start file) = .ret
      { CPUInfo := goAppend none env.cpuInfo.val, VmStat := env.virtualMemory.val,
        DiscStat := (env.diskUsage "/").val, HostStat := env.hostInfo.val,
        NetStat := goAppend none (env.netIOCounters true).val }
      (enter .GetNetStat (enter .GetHostStat (enter .GetDiscStat (enter .GetVmStat
        (enter .GetCPUInfo (World.start file)))))) := by
    simp [collect, GetCPUInfo, GetVmStat, GetDiscStat, GetHostStat, GetNetStat, Run.bind,
      h1, h2, h3, h4, h5, SysInfo.zero]
  refine ⟨_, _, hc, rfl, rfl, rfl, hmem h2, hdisk h3, hhost h4, ?_, ?_⟩
  · exact PrintSystemInfo_returns env _ _ (hmem h2) (hdisk h3) (hhost h4)
  · intro w' hp
    rw [main_eq_collect, hc] at hp
    obtain ⟨w1, hw1⟩ := PrintSystemInfo_returns env
      { CPUInfo := goAppend none env.cpuInfo.val, VmStat := env.virtualMemory.val,
        DiscStat := (env.diskUsage "/").val, HostStat := env.hostInfo.val,
        NetStat := goAppend none (env.netIOCounters true).val }
      (enter .GetNetStat (enter .GetHostStat (enter .GetDiscStat (enter .GetVmStat
        (enter .GetCPUInfo (World.start file))))))
      (hmem h2) (hdisk h3) (hhost h4)
    simp only [Run.bind, hw1] at hp
    unfold SaveSystemInfoToFile at hp
    cases hcr : env.osCreate <;> simp only [hcr, logFatalf] at hp
    · cases hm : MarshalIndent env.json
        { CPUInfo := goAppend none env.cpuInfo.val, VmStat := env.virtualMemory.val,
          DiscStat := (env.diskUsage "/").val, HostStat := env.hostInfo.val,
          NetStat := goAppend none (env.netIOCounters true).val } <;>
        simp only [hm] at hp
      · cases hp
      · split at hp <;> cases hp
    · cases hp

/-- Witness of `print_reached_only_populated`: the run of `sampleEnv`. -/
theorem print_reached_only_populated_witness :
    (sampleEnv.cpuInfo.err = none ∧ sampleEnv.virtualMemory.err = none ∧
      (sampleEnv.diskUsage "/").err = none ∧ sampleEnv.hostInfo.err = none ∧
      (sampleEnv.netIOCounters true).err = none) ∧
    ∃ s w, collect sampleEnv (World.start none) = .ret s w ∧
      s.VmStat = sampleEnv.virtualMemory.val ∧ s.DiscStat = (sampleEnv.diskUsage "/").val ∧
      s.HostStat = sampleEnv.hostInfo.val ∧
      s.VmStat ≠ none ∧ s.DiscStat ≠ none ∧ s.HostStat ≠ none ∧
      (∃ w', PrintSystemInfo sampleEnv s w = .ret () w') ∧
      ∀ w', main sampleEnv (World.start none) ≠ .panic w' :=
  print_reached_only_populated sampleEnv none (fun _ => by decide) (fun _ => by decide)
    (fun _ => by decide) (by decide)

/-! ## Persisting: failure after the file was created -/

/-- C6: when `os.Create` succeeds and then marshalling or the write fails,
`SaveSystemInfoToFile` ends in `os.Exit(1)` with nothing further printed (no
confirmation message); the file exists and holds what was written up to that
moment, whatever it held before the run: nothing after a marshalling failure,
the characters written so far after a failed write. -/
theorem save_failure_after_create (env : Env) (s : SysInfo) (w : World)
    (hc : env.osCreate = none) :
    (∀ e, MarshalIndent env.json s = .error e →
      ∃ w', SaveSystemInfoToFile env s w = .exit 1 w' ∧ w'.file = some "" ∧
        w'.stdout = w.stdout) ∧
    (∀ data n e, MarshalIndent env.json s = .ok data → env.fileWrite data = .short n e →
      ∃ w', SaveSystemInfoToFile env s w = .exit 1 w' ∧
        w'.file = some (String.mk (data.data.take n)) ∧ w'.stdout = w.stdout) := by
  constructor
  · intro e he
    simp only [SaveSystemInfoToFile, hc, he, logFatalf]
    exact ⟨_, rfl, rfl, rfl⟩
  · intro data n e hd hw
    simp only [SaveSystemInfoToFile, hc, hd, hw, logFatalf]
    exact ⟨_, rfl, rfl, rfl⟩

/-- Witness of `save_failure_after_create`: a marshalling failure (NaN clock
speed) and a write that stops after 10 characters, over a file that held
`old` before. -/
theorem save_failure_after_create_witness :
    (∃ w', SaveSystemInfoToFile sampleEnv nanInfo (World.start (some "old")) = .exit 1 w' ∧
      w'.file = some "" ∧ w'.stdout = []) ∧
    (∃ data, MarshalIndent shortWriteEnv.json sampleInfo = .ok data ∧
      ∃ w', SaveSystemInfoToFile shortWriteEnv sampleInfo (World.start (some "old")) =
        .exit 1 w' ∧ w'.file = some (String.mk (data.data.take 10)) ∧ w'.stdout = []) :=
  ⟨(save_failure_after_create sampleEnv nanInfo (World.start (some "old")) rfl).1
      "json: unsupported value" rfl,
   ⟨_, rfl, (save_failure_after_create shortWriteEnv sampleInfo (World.start (some "old"))
      rfl).2 _ 10 "no space left on device" rfl rfl⟩⟩

/-- The deferred `file.Close()` runs exactly when `SaveSystemInfoToFile`
returns: after a successful create, the handle ends closed if marshalling and
the write succeed, and is still open at `os.Exit(1)` if either fails. -/
theorem save_handle_after_create (env : Env) (s : SysInfo) (w : World)
    (hc : env.osCreate = none) :
    (∀ data, MarshalIndent env.json s = .ok data → env.fileWrite data = .ok →
      ∃ w', SaveSystemInfoToFile env s w = .ret () w' ∧ w'.handle = .closed) ∧
    (∀ e, MarshalIndent env.json s = .error e →
      ∃ w', SaveSystemInfoToFile env s w = .exit 1 w' ∧ w'.handle = .opened) ∧
    (∀ data n e, MarshalIndent env.json s = .ok data → env.fileWrite data = .short n e →
      ∃ w', SaveSystemInfoToFile env s w = .exit 1 w' ∧ w'.handle = .opened) := by
  refine ⟨fun data hd hw => ?_, fun e he => ?_, fun data n e hd hw => ?_⟩
  · simp only [SaveSystemInfoToFile, hc, hd, hw]
    exact ⟨_, rfl, rfl⟩
  · simp only [SaveSystemInfoToFile, hc, he, logFatalf]
    exact ⟨_, rfl, rfl⟩
  · simp only [SaveSystemInfoToFile, hc, hd, hw, logFatalf]
    exact ⟨_, rfl, rfl⟩

/-- C5 at a failing input: `os.Create` succeeds and the write stops after 10
characters; the process exits with status 1 and the handle is still open, the
deferred `file.Close()` not having run. -/
theorem save_short_write_handle_open :
    (SaveSystemInfoToFile shortWriteEnv sampleInfo (World.start none)).status = 1 ∧
    (SaveSystemInfoToFile shortWriteEnv sampleInfo (World.start none)).world.handle =
      .opened ∧
    (SaveSystemInfoToFile sampleEnv nanInfo (World.start none)).status = 1 ∧
    (SaveSystemInfoToFile sampleEnv nanInfo (World.start none)).world.handle = .opened ∧
    (SaveSystemInfoToFile sampleEnv sampleInfo (World.start none)).world.handle =
      .closed := by
  decide

/-! ## Rendering: shape of the formatted cells -/

theorem digitChar_isDigit (n : Nat) (h : n < 10) : (Nat.digitChar n).isDigit = true := by
  interval_cases n <;> rfl

theorem toDigitsCore_all (fuel : Nat) : ∀ (n : Nat) (acc : List Char),
    acc.all Char.isDigit = true → (Nat.toDigitsCore 10 fuel n acc).all Char.isDigit = true := by
  induction fuel with
  | zero => intro n acc h; simpa [Nat.toDigitsCore] using h
  | succ f ih =>
    intro n acc h
    have hd : (Nat.digitChar (n % 10)).isDigit = true :=
      digitChar_isDigit _ (Nat.mod_lt _ (by decide))
    unfold Nat.toDigitsCore
    simp only
    split
    · simp [hd, h]
    · exact ih _ _ (by simp [hd, h])

theorem toDigitsCore_ne_nil (fuel : Nat) : ∀ (n : Nat) (acc : List Char),
    acc ≠ [] → Nat.toDigitsCore 10 fuel n acc ≠ [] := by
  induction fuel with
  | zero => intro n acc h; simpa [Nat.toDigitsCore] using h
  | succ f ih =>
    intro n acc h
    unfold Nat.toDigitsCore
    simp only
    split
    · simp
    · exact ih _ _ (by simp)

theorem isDigits_toDigits (n : Nat) : isDigits (Nat.toDigits 10 n) = true := by
  have h1 : (Nat.toDigits 10 n).all Char.isDigit = true := toDigitsCore_all _ _ _ (by simp)
  have h2 : Nat.toDigits 10 n ≠ [] := by
    unfold Nat.toDigits Nat.toDigitsCore
    simp only
    split
    · simp
    · exact toDigitsCore_ne_nil _ _ _ (by simp)
  cases h : Nat.toDigits 10 n with
  | nil => exact absurd h h2
  | cons c cs => rw [h] at h1; simpa [isDigits] using h1

theorem dropSign_of_isDigits (cs : List Char) (h : isDigits cs = true) : dropSign cs = cs := by
  cases cs with
  | nil => rfl
  | cons c cs =>
    by_cases hc : c = '-'
    · subst hc; simp [isDigits] at h
    · unfold dropSign
      split
      · rename_i heq; simp at heq; exact absurd heq.1 hc
      · rfl

theorem dropSign_append (cs rest : List Char) (h : isDigits cs = true) :
    dropSign (cs ++ rest) = cs ++ rest := by
  cases cs with
  | nil => simp [isDigits] at h
  | cons c cs =>
    by_cases hc : c = '-'
    · subst hc; simp [isDigits] at h
    · unfold dropSign
      split
      · rename_i heq; simp at heq; exact absurd heq.1 hc
      · rfl

theorem toString_nat_data (n : Nat) : (toString n).data = Nat.toDigits 10 n := rfl

theorem isPlainInt_sprintfD (n : Int) : isPlainInt (sprintfD n) = true := by
  unfold sprintfD isPlainInt
  cases n with
  | ofNat m =>
    show isDigits (dropSign (Nat.toDigits 10 m)) = true
    rw [dropSign_of_isDigits _ (isDigits_toDigits m)]
    exact isDigits_toDigits m
  | negSucc m =>
    show isDigits (dropSign ("-" ++ toString (m + 1)).data) = true
    simp only [String.data_append, toString_nat_data]
    exact isDigits_toDigits _

theorem isDigits_reverse (cs : List Char) (h : isDigits cs = true) :
    isDigits cs.reverse = true := by
  cases cs with
  | nil => simp [isDigits] at h
  | cons c cs =>
    simp [isDigits] at h ⊢
    exact ⟨h.2, h.1⟩

theorem isFixed2_of_parts (ds : List Char) (d1 d2 : Char) (h : isDigits ds = true)
    (h1 : d1.isDigit = true) (h2 : d2.isDigit = true) (neg : Bool) :
    isFixed2 (String.mk ((if neg then ['-'] else []) ++ (ds ++ ['.', d1, d2]))) = true := by
  have hr : (ds ++ ['.', d1, d2]).reverse = d2 :: d1 :: '.' :: ds.reverse := by simp
  have hs : dropSign ((if neg then ['-'] else []) ++ (ds ++ ['.', d1, d2])) =
      ds ++ ['.', d1, d2] := by
    cases neg with
    | true => rfl
    | false => simpa using dropSign_append ds _ h
  unfold isFixed2
  simp only [hs, hr]
  simp [h1, h2, isDigits_reverse ds h]

theorem sprintfF2_finite_data (neg : Bool) (mant : Nat) (exp : Int) :
    (sprintfF2 (.finite neg mant exp)).data =
      (if neg then ['-'] else []) ++ (Nat.toDigits 10 (roundHundredths mant exp / 100) ++
        ['.', Nat.digitChar (roundHundredths mant exp / 10 % 10),
          Nat.digitChar (roundHundredths mant exp % 10)]) := by
  cases neg <;> simp [sprintfF2, String.data_append, toString_nat_data, twoDigits]

theorem isFixed2_sprintfF2 (x : Float64) (h : x.isFinite = true) :
    isFixed2 (sprintfF2 x) = true := by
  cases x with
  | finite neg mant exp =>
    have := isFixed2_of_parts (Nat.toDigits 10 (roundHundredths mant exp / 100))
      (Nat.digitChar (roundHundredths mant exp / 10 % 10))
      (Nat.digitChar (roundHundredths mant exp % 10)) (isDigits_toDigits _)
      (digitChar_isDigit _ (Nat.mod_lt _ (by decide)))
      (digitChar_isDigit _ (Nat.mod_lt _ (by decide))) neg
    rw [← sprintfF2_finite_data] at this
    exact this
  | inf neg => simp [Float64.isFinite] at h
  | nan => simp [Float64.isFinite] at h

theorem isPercent2_sprintfF2 (x : Float64) (h : x.isFinite = true) :
    isPercent2 (sprintfF2 x ++ "%") = true := by
  unfold isPercent2
  have : (sprintfF2 x ++ "%").data.reverse = '%' :: (sprintfF2 x).data.reverse := by
    simp [String.data_append]
  rw [this]
  simp only [List.reverse_reverse]
  exact isFixed2_sprintfF2 x h

theorem foldl_Append {α : Type} (f : α → List String) (xs : List α) (t : Table) :
    xs.foldl (fun t x => t.Append (f x)) t =
      { header := t.header, rows := t.rows ++ xs.map f } := by
  induction xs generalizing t with
  | nil => simp
  | cons x xs ih =>
    simp only [List.foldl_cons, ih]
    simp [Table.Append]

theorem PrintSystemInfo_populated (env : Env) (s : SysInfo) (w : World)
    (vm : mem.VirtualMemoryStat) (disc : disk.UsageStat) (host : host.InfoStat)
    (hv : s.VmStat = some vm) (hd : s.DiscStat = some disc) (hh : s.HostStat = some host) :
    PrintSystemInfo env s w = .ret ()
      { stdout := w.stdout ++
          [.colored [.FgCyan, .Bold] "\nSystem Information\n",
           .colored [.FgGreen] "\nHost Information:\n",
           .table { header := ["Property", "Value"], rows := hostRows host },
           .colored [.FgGreen] "\nCPU Information:\n",
           .table { header := ["CPU", "Model Name", "Cores", "Mhz"],
                    rows := (elems s.CPUInfo).map cpuRow },
           .colored [.FgGreen] "\nMemory Information:\n",
           .table { header := ["Total", "Available", "Used", "Used Percent"],
                    rows := [memRow vm] },
           .colored [.FgGreen] "\nDisk Information:\n",
           .table { header := ["Path", "Total", "Free", "Used", "Used Percent"],
                    rows := [diskRow disc] },
           .colored [.FgGreen] "\nNetwork Information:\n",
           .table { header := ["Name", "Bytes Sent", "Bytes Received", "Packets Sent",
                      "Packets Received"],
                    rows := (elems s.NetStat).map netRow },
           .colored [.FgGreen] "\nGo Version:\n",
           .colored [.FgYellow] (env.runtimeVersion ++ "\n")]
        stderr := w.stderr
        file := w.file
        handle := w.handle
        entered := w.entered ++ [.PrintSystemInfo] } := by
  simp only [PrintSystemInfo, hv, hd, hh, foldl_Append]
  simp [colorPrintln, colorPrintf, enter, Table.Render, Table.Append, Table.SetHeader,
    tablewriter.NewWriter, hostRows]

theorem tablesOf_append (a b : List Out) : tablesOf (a ++ b) = tablesOf a ++ tablesOf b := by
  induction a with
  | nil => rfl
  | cons o a ih => cases o <;> simp [tablesOf, ih]

theorem digitsToNat_eq (c : Char) (cs : List Char) :
    digitsToNat (c :: cs) = (c :: cs).foldl digitStep (some 0) := rfl

theorem digitStep_digitChar (a d : Nat) (hd : d < 10) :
    digitStep (some a) (Nat.digitChar d) = some (10 * a + d) := by
  interval_cases d <;> rfl

theorem foldl_toDigitsCore (fuel : Nat) : ∀ (n : Nat) (acc : List Char), n < fuel →
    ∃ k, ∀ a, (Nat.toDigitsCore 10 fuel n acc).foldl digitStep (some a) =
      acc.foldl digitStep (some (a * 10 ^ k + n)) := by
  induction fuel with
  | zero => intro n acc h; omega
  | succ f ih =>
    intro n acc h
    unfold Nat.toDigitsCore
    simp only
    split
    · rename_i h0
      refine ⟨1, fun a => ?_⟩
      rw [List.foldl_cons, digitStep_digitChar _ _ (Nat.mod_lt _ (by decide))]
      congr 2
      omega
    · rename_i h0
      obtain ⟨k, hk⟩ := ih (n / 10) (Nat.digitChar (n % 10) :: acc) (by omega)
      refine ⟨k + 1, fun a => ?_⟩
      rw [hk a, List.foldl_cons, digitStep_digitChar _ _ (Nat.mod_lt _ (by decide))]
      congr 2
      rw [pow_succ]
      have := Nat.div_add_mod n 10
      nlinarith [this]

theorem toDigits_ne_nil (n : Nat) : Nat.toDigits 10 n ≠ [] := by
  unfold Nat.toDigits Nat.toDigitsCore
  simp only
  split
  · simp
  · exact toDigitsCore_ne_nil _ _ _ (by simp)

theorem digitsToNat_toDigits (n : Nat) : digitsToNat (Nat.toDigits 10 n) = some n := by
  cases h : Nat.toDigits 10 n with
  | nil => exact absurd h (toDigits_ne_nil n)
  | cons c cs =>
    rw [digitsToNat_eq, ← h]
    obtain ⟨k, hk⟩ := foldl_toDigitsCore (n + 1) n [] (Nat.lt_succ_self n)
    have := hk 0
    simpa [Nat.toDigits] using this

theorem readInt_sprintfD (n : Int) : readInt (sprintfD n) = some n := by
  unfold readInt sprintfD
  cases n with
  | ofNat m =>
    show (match Nat.toDigits 10 m with
      | '-' :: cs => (digitsToNat cs).map fun n => -(n : Int)
      | cs => (digitsToNat cs).map Int.ofNat) = some (Int.ofNat m)
    have hd := isDigits_toDigits m
    cases h : Nat.toDigits 10 m with
    | nil => exact absurd h (toDigits_ne_nil m)
    | cons c cs =>
      by_cases hc : c = '-'
      · subst hc; rw [h] at hd; simp [isDigits] at hd
      · have : digitsToNat (c :: cs) = some m := h ▸ digitsToNat_toDigits m
        split
        · rename_i heq; simp at heq; exact absurd heq.1 hc
        · simp [this]
  | negSucc m =>
    show (match ("-" ++ toString (m + 1)).data with
      | '-' :: cs => (digitsToNat cs).map fun n => -(n : Int)
      | cs => (digitsToNat cs).map Int.ofNat) = some (Int.negSucc m)
    simp only [String.data_append, toString_nat_data]
    show (digitsToNat (Nat.toDigits 10 (m + 1))).map (fun n => -(n : Int)) = _
    rw [digitsToNat_toDigits]
    rfl

theorem showsInt_sprintfD (n : Int) : ShowsInt (sprintfD n) n :=
  ⟨isPlainInt_sprintfD n, readInt_sprintfD n⟩

theorem digitsToNat_two (a b : Nat) (ha : a < 10) (hb : b < 10) :
    digitsToNat [Nat.digitChar a, Nat.digitChar b] = some (10 * a + b) := by
  rw [digitsToNat_eq, List.foldl_cons, List.foldl_cons, List.foldl_nil,
    digitStep_digitChar _ _ ha, digitStep_digitChar _ _ hb]
  simp

theorem head_toDigits_ne_minus (n : Nat) (rest : List Char) :
    (Nat.toDigits 10 n ++ rest).head? ≠ some '-' := by
  have hd := isDigits_toDigits n
  cases h : Nat.toDigits 10 n with
  | nil => exact absurd h (toDigits_ne_nil n)
  | cons c cs =>
    rw [h] at hd
    intro hc
    simp at hc
    subst hc
    simp [isDigits] at hd

theorem readFixed2_sprintfF2 (neg : Bool) (mant : Nat) (exp : Int) :
    readFixed2 (sprintfF2 (.finite neg mant exp)) = some (neg, roundHundredths mant exp) := by
  have hs : dropSign ((if neg then ['-'] else []) ++
      (Nat.toDigits 10 (roundHundredths mant exp / 100) ++
        ['.', Nat.digitChar (roundHundredths mant exp / 10 % 10),
          Nat.digitChar (roundHundredths mant exp % 10)])) =
      Nat.toDigits 10 (roundHundredths mant exp / 100) ++
        ['.', Nat.digitChar (roundHundredths mant exp / 10 % 10),
          Nat.digitChar (roundHundredths mant exp % 10)] := by
    cases neg with
    | true => rfl
    | false => simpa using dropSign_append _ _ (isDigits_toDigits _)
  have hn : (((if neg then ['-'] else []) ++
      (Nat.toDigits 10 (roundHundredths mant exp / 100) ++
        ['.', Nat.digitChar (roundHundredths mant exp / 10 % 10),
          Nat.digitChar (roundHundredths mant exp % 10)])).head? == some '-') = neg := by
    cases neg with
    | true => rfl
    | false =>
      have := head_toDigits_ne_minus (roundHundredths mant exp / 100)
        ['.', Nat.digitChar (roundHundredths mant exp / 10 % 10),
          Nat.digitChar (roundHundredths mant exp % 10)]
      simpa using this
  unfold readFixed2
  rw [sprintfF2_finite_data, hs, hn]
  simp only [List.reverse_append, List.reverse_cons, List.reverse_nil, List.nil_append,
    List.cons_append, List.reverse_reverse, List.append_nil]
  rw [digitsToNat_toDigits,
    digitsToNat_two _ _ (Nat.mod_lt _ (by decide)) (Nat.mod_lt _ (by decide))]
  simp only [Option.some.injEq, Prod.mk.injEq, true_and]
  omega

theorem abs_scaled_le (D N h : ℚ) (hD : 0 < D) (hh : |N - h * D| ≤ D / 2) :
    |N * D⁻¹ - h| ≤ 1 / 2 := by
  have e1 : N * D⁻¹ - h = (N - h * D) / D := by
    field_simp
    ring
  rw [e1, abs_div, abs_of_pos hD, div_le_iff₀ hD]
  linarith

theorem roundHundredths_nearest (mant : Nat) (exp : Int) :
    |100 * (mant : ℚ) * (2 : ℚ) ^ exp - (roundHundredths mant exp : ℚ)| ≤ 1 / 2 := by
  cases exp with
  | ofNat e =>
    have : ((roundHundredths mant (Int.ofNat e) : ℕ) : ℚ) = 100 * (mant : ℚ) * 2 ^ e := by
      simp [roundHundredths]
    rw [this, Int.ofNat_eq_coe, zpow_natCast, sub_self, abs_zero]
    norm_num
  | negSucc e =>
    have hd : (0 : ℚ) < 2 ^ (e + 1) := by positivity
    have hdiv := Nat.div_add_mod (100 * mant) (2 ^ (e + 1))
    have hlt := Nat.mod_lt (100 * mant) (Nat.pos_of_ne_zero (pow_ne_zero (e + 1) two_ne_zero))
    have hq : (100 * (mant : ℚ)) = (2 : ℚ) ^ (e + 1) * ((100 * mant / 2 ^ (e + 1) : ℕ) : ℚ) +
        ((100 * mant % 2 ^ (e + 1) : ℕ) : ℚ) := by
      exact_mod_cast hdiv.symm
    have hr : ((100 * mant % 2 ^ (e + 1) : ℕ) : ℚ) < 2 ^ (e + 1) := by exact_mod_cast hlt
    have hr0 : (0 : ℚ) ≤ ((100 * mant % 2 ^ (e + 1) : ℕ) : ℚ) := Nat.cast_nonneg _
    rw [zpow_negSucc]
    apply abs_scaled_le _ _ _ hd
    rw [hq]
    unfold roundHundredths
    simp only
    split_ifs with h1 h2 h3
    · have h1' : (2 ^ (e + 1) : ℚ) < 2 * ((100 * mant % 2 ^ (e + 1) : ℕ) : ℚ) := by
        exact_mod_cast h1
      rw [Nat.cast_add, Nat.cast_one, abs_le]
      constructor <;> linarith
    · have h2' : 2 * ((100 * mant % 2 ^ (e + 1) : ℕ) : ℚ) = (2 ^ (e + 1) : ℚ) := by
        exact_mod_cast h2
      rw [Nat.cast_add, Nat.cast_one, abs_le]
      constructor <;> linarith
    · have h2' : 2 * ((100 * mant % 2 ^ (e + 1) : ℕ) : ℚ) = (2 ^ (e + 1) : ℚ) := by
        exact_mod_cast h2
      rw [abs_le]
      constructor <;> linarith
    · have h1' : 2 * ((100 * mant % 2 ^ (e + 1) : ℕ) : ℚ) ≤ (2 ^ (e + 1) : ℚ) := by
        exact_mod_cast (Nat.le_of_not_lt h1)
      rw [abs_le]
      constructor <;> linarith

theorem showsFixed2_sprintfF2 (x : Float64) : ShowsFixed2 (sprintfF2 x) x := by
  cases x with
  | finite neg mant exp =>
    exact ⟨isFixed2_sprintfF2 _ rfl, _, readFixed2_sprintfF2 neg mant exp,
      roundHundredths_nearest mant exp⟩
  | inf neg => cases neg <;> rfl
  | nan => rfl

/-! ## Rendering: rows -/

/-- C9: with the three pointer fields non-nil, `PrintSystemInfo` returns (no
panic) having rendered five tables, host, CPU, memory, disk, network in this
order; the CPU table has one row per element of `CPUInfo` in list order, the
network table one row per element of `NetStat` in list order, the memory and
disk tables one row each; with no CPU record or no network interface the
table concerned keeps its header and has no row. -/
theorem print_rows_per_element (env : Env) (s : SysInfo) (w : World)
    (hv : s.VmStat ≠ none) (hd : s.DiscStat ≠ none) (hh : s.HostStat ≠ none) :
    ∃ w' hostT cpuT memT diskT netT, PrintSystemInfo env s w = .ret () w' ∧
      tablesOf w'.stdout = tablesOf w.stdout ++ [hostT, cpuT, memT, diskT, netT] ∧
      cpuT.header = ["CPU", "Model Name", "Cores", "Mhz"] ∧
      cpuT.rows = (elems s.CPUInfo).map cpuRow ∧
      netT.header = ["Name", "Bytes Sent", "Bytes Received", "Packets Sent",
        "Packets Received"] ∧
      netT.rows = (elems s.NetStat).map netRow ∧
      memT.rows.length = 1 ∧ diskT.rows.length = 1 ∧
      (elems s.CPUInfo = [] → cpuT.rows = []) ∧
      (elems s.NetStat = [] → netT.rows = []) := by
  obtain ⟨vm, hvm⟩ := Option.ne_none_iff_exists'.mp hv
  obtain ⟨disc, hdisc⟩ := Option.ne_none_iff_exists'.mp hd
  obtain ⟨host, hhost⟩ := Option.ne_none_iff_exists'.mp hh
  refine ⟨_, { header := ["Property", "Value"], rows := hostRows host },
    { header := ["CPU", "Model Name", "Cores", "Mhz"], rows := (elems s.CPUInfo).map cpuRow },
    { header := ["Total", "Available", "Used", "Used Percent"], rows := [memRow vm] },
    { header := ["Path", "Total", "Free", "Used", "Used Percent"], rows := [diskRow disc] },
    { header := ["Name", "Bytes Sent", "Bytes Received", "Packets Sent", "Packets Received"],
      rows := (elems s.NetStat).map netRow },
    PrintSystemInfo_populated env s w vm disc host hvm hdisc hhost,
    ?_, rfl, rfl, rfl, rfl, rfl, rfl, ?_, ?_⟩
  · simp [tablesOf_append, tablesOf]
  · intro h; simp [h]
  · intro h; simp [h]

/-- Witness of `print_rows_per_element`: a snapshot with a nil CPU list and an
empty network list. -/
theorem print_rows_per_element_witness :
    ∃ w' hostT cpuT memT diskT netT,
      PrintSystemInfo sampleEnv noListsInfo (World.start none) = .ret () w' ∧
      tablesOf w'.stdout = tablesOf (World.start none).stdout ++
        [hostT, cpuT, memT, diskT, netT] ∧
      cpuT.header = ["CPU", "Model Name", "Cores", "Mhz"] ∧
      cpuT.rows = (elems noListsInfo.CPUInfo).map cpuRow ∧
      netT.header = ["Name", "Bytes Sent", "Bytes Received", "Packets Sent",
        "Packets Received"] ∧
      netT.rows = (elems noListsInfo.NetStat).map netRow ∧
      memT.rows.length = 1 ∧ diskT.rows.length = 1 ∧
      (elems noListsInfo.CPUInfo = [] → cpuT.rows = []) ∧
      (elems noListsInfo.NetStat = [] → netT.rows = []) :=
  print_rows_per_element sampleEnv noListsInfo (World.start none)
    (by decide) (by decide) (by decide)

/-! ## Rendering: section headers -/

/-- C8 as stated fails on the sample snapshot: `PrintSystemInfo` prints six
green header lines, not five, and one of them (the last, `Go Version:`) is not
followed by a table. -/
theorem print_five_headers_counterexample :
    ¬ (((PrintSystemInfo sampleEnv sampleInfo (World.start none)).world.stdout.filter
          isSectionHeader).length = 5) ∧
    ¬ (headersFollowedByTable
        (PrintSystemInfo sampleEnv sampleInfo (World.start none)).world.stdout = true) ∧
    ((PrintSystemInfo sampleEnv sampleInfo (World.start none)).world.stdout.filter
      isSectionHeader).length = 6 := by
  decide

/-- C8 amended: with the three pointer fields non-nil, `PrintSystemInfo`
prints a title line, then the five section headers Host, CPU, Memory, Disk,
Network, each immediately followed by the rendering of one table, then a sixth
header `Go Version:` followed by the Go runtime version as text, not by a
table. -/
theorem print_headers_and_tables (env : Env) (s : SysInfo) (w : World)
    (hv : s.VmStat ≠ none) (hd : s.DiscStat ≠ none) (hh : s.HostStat ≠ none) :
    ∃ w' hostT cpuT memT diskT netT, PrintSystemInfo env s w = .ret () w' ∧
      w'.stdout = w.stdout ++
        [.colored [.FgCyan, .Bold] "\nSystem Information\n",
         .colored [.FgGreen] "\nHost Information:\n", .table hostT,
         .colored [.FgGreen] "\nCPU Information:\n", .table cpuT,
         .colored [.FgGreen] "\nMemory Information:\n", .table memT,
         .colored [.FgGreen] "\nDisk Information:\n", .table diskT,
         .colored [.FgGreen] "\nNetwork Information:\n", .table netT,
         .colored [.FgGreen] "\nGo Version:\n",
         .colored [.FgYellow] (env.runtimeVersion ++ "\n")] ∧
      ((w'.stdout.drop w.stdout.length).filter isSectionHeader).length = 6 ∧
      headersFollowedByTable ((w'.stdout.drop w.stdout.length).take 11) = true := by
  obtain ⟨vm, hvm⟩ := Option.ne_none_iff_exists'.mp hv
  obtain ⟨disc, hdisc⟩ := Option.ne_none_iff_exists'.mp hd
  obtain ⟨host, hhost⟩ := Option.ne_none_iff_exists'.mp hh
  refine ⟨_, _, _, _, _, _, PrintSystemInfo_populated env s w vm disc host hvm hdisc hhost,
    rfl, ?_, ?_⟩
  · simp [isSectionHeader]
  · simp [headersFollowedByTable, isSectionHeader, isTable]

/-- Witness of `print_headers_and_tables`: the sample snapshot. -/
theorem print_headers_and_tables_witness :
    ∃ w' hostT cpuT memT diskT netT,
      PrintSystemInfo sampleEnv sampleInfo (World.start none) = .ret () w' ∧
      w'.stdout = (World.start none).stdout ++
        [.colored [.FgCyan, .Bold] "\nSystem Information\n",
         .colored [.FgGreen] "\nHost Information:\n", .table hostT,
         .colored [.FgGreen] "\nCPU Information:\n", .table cpuT,
         .colored [.FgGreen] "\nMemory Information:\n", .table memT,
         .colored [.FgGreen] "\nDisk Information:\n", .table diskT,
         .colored [.FgGreen] "\nNetwork Information:\n", .table netT,
         .colored [.FgGreen] "\nGo Version:\n",
         .colored [.FgYellow] (sampleEnv.runtimeVersion ++ "\n")] ∧
      ((w'.stdout.drop (World.start none).stdout.length).filter isSectionHeader).length = 6 ∧
      headersFollowedByTable ((w'.stdout.drop (World.start none).stdout.length).take 11) =
        true :=
  print_headers_and_tables sampleEnv sampleInfo (World.start none)
    (by decide) (by decide) (by decide)

/-! ## Rendering: numeric cells -/

/-- C7 as stated fails on the sample snapshot: the uptime cell reads
`5 seconds` and the clock-speed cell reads `2400.00`; neither is a plain
decimal integer, neither is a two-decimal percentage.  With a NaN
used-percentage the percentage cell reads `NaN%`. -/
theorem print_numeric_cells_counterexample :
    (∃ hostT cpuT memT diskT netT,
      tablesOf (PrintSystemInfo sampleEnv sampleInfo (World.start none)).world.stdout =
        [hostT, cpuT, memT, diskT, netT] ∧
      hostT.rows.drop 7 = [["Uptime", "5 seconds"], ["Boot Time", "1700000000"],
        ["Procs", "42"]] ∧
      cpuT.rows = [["0", "Example CPU", "4", "2400.00"]] ∧
      memT.rows = [["1000", "500", "500", "50.00%"]]) ∧
    isPlainInt "5 seconds" = false ∧ isPercent2 "5 seconds" = false ∧
    isPlainInt "2400.00" = false ∧ isPercent2 "2400.00" = false ∧
    (∃ hostT cpuT memT diskT netT,
      tablesOf (PrintSystemInfo sampleEnv nanPercentInfo (World.start none)).world.stdout =
        [hostT, cpuT, memT, diskT, netT] ∧
      memT.rows = [["1000", "500", "500", "NaN%"]]) ∧
    isPercent2 "NaN%" = false := by
  refine ⟨⟨_, _, _, _, _, rfl, ?_, ?_, ?_⟩, ?_, ?_, ?_, ?_, ⟨_, _, _, _, _, rfl, ?_⟩, ?_⟩ <;>
    decide

/-- C7 amended: with the three pointer fields non-nil, the numeric cells of the
five tables show their fields in four ways.  Uptime is the value as a plain
decimal integer followed by ` seconds`.  The clock speed of a CPU record is
the value rounded to exactly two decimals, with no suffix.  The memory and
disk used-percentage is the value rounded to exactly two decimals followed by
`%`, so that 50 gives `50.00%`.  Every other numeric cell (boot time, process
count, CPU index, cores, the byte and packet counters, the totals) is the
value as a plain decimal integer and nothing else.  A NaN or infinite float is
spelled `NaN`, `+Inf` or `-Inf` where a finite one has its two decimals. -/
theorem print_numeric_cells (env : Env) (s : SysInfo) (w : World)
    (vm : mem.VirtualMemoryStat) (disc : disk.UsageStat) (host : host.InfoStat)
    (hv : s.VmStat = some vm) (hd : s.DiscStat = some disc) (hh : s.HostStat = some host) :
    ∃ w' hostT cpuT memT diskT netT, PrintSystemInfo env s w = .ret () w' ∧
      tablesOf w'.stdout = tablesOf w.stdout ++ [hostT, cpuT, memT, diskT, netT] ∧
      (∃ up bt pr, hostT.rows.drop 7 =
          [["Uptime", up ++ " seconds"], ["Boot Time", bt], ["Procs", pr]] ∧
        ShowsInt up host.Uptime ∧ ShowsInt bt host.BootTime ∧ ShowsInt pr host.Procs) ∧
      cpuT.rows = (elems s.CPUInfo).map cpuRow ∧
      (∀ c ∈ elems s.CPUInfo, ∃ i k f, cpuRow c = [i, c.ModelName, k, f] ∧
        ShowsInt i c.CPU ∧ ShowsInt k c.Cores ∧ ShowsFixed2 f c.Mhz ∧
        (c.Mhz.isFinite = true → isFixed2 f = true) ∧
        (c.Mhz = .finite false 2400 0 → f = "2400.00")) ∧
      (∃ a b c f, memT.rows = [[a, b, c, f ++ "%"]] ∧ ShowsInt a vm.Total ∧
        ShowsInt b vm.Available ∧ ShowsInt c vm.Used ∧ ShowsFixed2 f vm.UsedPercent ∧
        (vm.UsedPercent.isFinite = true → isPercent2 (f ++ "%") = true) ∧
        (vm.UsedPercent = .finite false 50 0 → f ++ "%" = "50.00%")) ∧
      (∃ a b c f, diskT.rows = [[disc.Path, a, b, c, f ++ "%"]] ∧ ShowsInt a disc.Total ∧
        ShowsInt b disc.Free ∧ ShowsInt c disc.Used ∧ ShowsFixed2 f disc.UsedPercent ∧
        (disc.UsedPercent.isFinite = true → isPercent2 (f ++ "%") = true) ∧
        (disc.UsedPercent = .finite false 50 0 → f ++ "%" = "50.00%")) ∧
      netT.rows = (elems s.NetStat).map netRow ∧
      (∀ n ∈ elems s.NetStat, ∃ a b c d, netRow n = [n.Name, a, b, c, d] ∧
        ShowsInt a n.BytesSent ∧ ShowsInt b n.BytesRecv ∧ ShowsInt c n.PacketsSent ∧
        ShowsInt d n.PacketsRecv) := by
  refine ⟨_, { header := ["Property", "Value"], rows := hostRows host },
    { header := ["CPU", "Model Name", "Cores", "Mhz"], rows := (elems s.CPUInfo).map cpuRow },
    { header := ["Total", "Available", "Used", "Used Percent"], rows := [memRow vm] },
    { header := ["Path", "Total", "Free", "Used", "Used Percent"], rows := [diskRow disc] },
    { header := ["Name", "Bytes Sent", "Bytes Received", "Packets Sent", "Packets Received"],
      rows := (elems s.NetStat).map netRow },
    PrintSystemInfo_populated env s w vm disc host hv hd hh, ?_, ?_, rfl, ?_, ?_, ?_, rfl, ?_⟩
  · simp [tablesOf_append, tablesOf]
  · exact ⟨_, _, _, rfl, showsInt_sprintfD _, showsInt_sprintfD _, showsInt_sprintfD _⟩
  · intro c _
    exact ⟨_, _, _, rfl, showsInt_sprintfD _, showsInt_sprintfD _, showsFixed2_sprintfF2 _,
      isFixed2_sprintfF2 _, fun h => by rw [h]; decide⟩
  · exact ⟨_, _, _, _, rfl, showsInt_sprintfD _, showsInt_sprintfD _, showsInt_sprintfD _,
      showsFixed2_sprintfF2 _, isPercent2_sprintfF2 _, fun h => by rw [h]; decide⟩
  · exact ⟨_, _, _, _, rfl, showsInt_sprintfD _, showsInt_sprintfD _, showsInt_sprintfD _,
      showsFixed2_sprintfF2 _, isPercent2_sprintfF2 _, fun h => by rw [h]; decide⟩
  · intro n _
    exact ⟨_, _, _, _, rfl, showsInt_sprintfD _, showsInt_sprintfD _, showsInt_sprintfD _,
      showsInt_sprintfD _⟩

/-- Witness of `print_numeric_cells`: the sample snapshot. -/
theorem print_numeric_cells_witness :
    ∃ w' hostT cpuT memT diskT netT,
      PrintSystemInfo sampleEnv sampleInfo (World.start none) = .ret () w' ∧
      tablesOf w'.stdout = tablesOf (World.start none).stdout ++
        [hostT, cpuT, memT, diskT, netT] ∧
      (∃ up bt pr, hostT.rows.drop 7 =
          [["Uptime", up ++ " seconds"], ["Boot Time", bt], ["Procs", pr]] ∧
        ShowsInt up sampleHost.Uptime ∧ ShowsInt bt sampleHost.BootTime ∧
        ShowsInt pr sampleHost.Procs) ∧
      cpuT.rows = (elems sampleInfo.CPUInfo).map cpuRow ∧
      (∀ c ∈ elems sampleInfo.CPUInfo, ∃ i k f, cpuRow c = [i, c.ModelName, k, f] ∧
        ShowsInt i c.CPU ∧ ShowsInt k c.Cores ∧ ShowsFixed2 f c.Mhz ∧
        (c.Mhz.isFinite = true → isFixed2 f = true) ∧
        (c.Mhz = .finite false 2400 0 → f = "2400.00")) ∧
      (∃ a b c f, memT.rows = [[a, b, c, f ++ "%"]] ∧ ShowsInt a sampleMem.Total ∧
        ShowsInt b sampleMem.Available ∧ ShowsInt c sampleMem.Used ∧
        ShowsFixed2 f sampleMem.UsedPercent ∧
        (sampleMem.UsedPercent.isFinite = true → isPercent2 (f ++ "%") = true) ∧
        (sampleMem.UsedPercent = .finite false 50 0 → f ++ "%" = "50.00%")) ∧
      (∃ a b c f, diskT.rows = [[sampleDisk.Path, a, b, c, f ++ "%"]] ∧
        ShowsInt a sampleDisk.Total ∧ ShowsInt b sampleDisk.Free ∧
        ShowsInt c sampleDisk.Used ∧ ShowsFixed2 f sampleDisk.UsedPercent ∧
        (sampleDisk.UsedPercent.isFinite = true → isPercent2 (f ++ "%") = true) ∧
        (sampleDisk.UsedPercent = .finite false 50 0 → f ++ "%" = "50.00%")) ∧
      netT.rows = (elems sampleInfo.NetStat).map netRow ∧
      (∀ n ∈ elems sampleInfo.NetStat, ∃ a b c d, netRow n = [n.Name, a, b, c, d] ∧
        ShowsInt a n.BytesSent ∧ ShowsInt b n.BytesRecv ∧ ShowsInt c n.PacketsSent ∧
        ShowsInt d n.PacketsRecv) :=
  print_numeric_cells sampleEnv sampleInfo (World.start none) sampleMem sampleDisk sampleHost
    rfl rfl rfl

/-- The two-decimal rendering on known values: 50 gives `50.00`, 12.5 gives
`12.50`, the ties 0.125 and 0.375 go to the even neighbour, a tiny negative
value keeps its sign. -/
theorem sprintfF2_examples :
    sprintfF2 (.finite false 50 0) ++ "%" = "50.00%" ∧
    sprintfF2 (.finite false 25 (-1)) = "12.50" ∧
    sprintfF2 (.finite false 1 (-3)) = "0.12" ∧
    sprintfF2 (.finite false 3 (-3)) = "0.38" ∧
    sprintfF2 (.finite true 1 (-10)) = "-0.00" ∧
    sprintfF2 (.finite false 7205759403792794 (-56)) = "0.10" ∧
    sprintfF2 .nan = "NaN" ∧ sprintfF2 (.inf false) = "+Inf" := by
  decide

/-! ## Reading back what `render` writes -/

theorem hexVal_digitChar (k : Nat) (h : k < 16) : hexVal (Nat.digitChar k) = some k := by
  interval_cases k <;> rfl

theorem hexCode_hex4 (n : Nat) (h : n < 65536) :
    ∃ a b c d, hex4 n = [a, b, c, d] ∧ hexCode a b c d = some n := by
  refine ⟨_, _, _, _, rfl, ?_⟩
  unfold hexCode
  rw [hexVal_digitChar _ (Nat.mod_lt _ (by decide)), hexVal_digitChar _ (Nat.mod_lt _ (by decide)),
    hexVal_digitChar _ (Nat.mod_lt _ (by decide)), hexVal_digitChar _ (Nat.mod_lt _ (by decide))]
  have hn : ((n / 4096 % 16 * 16 + n / 256 % 16) * 16 + n / 16 % 16) * 16 + n % 16 = n := by
    omega
  simp only [hn]

/-- Reading what `escapeChar` writes for one character gives the character back. -/
theorem parseChars_escapeChar (c : Char) (tail : List Char) :
    parseChars none (escapeChar c ++ tail) = consChar c (parseChars none tail) := by
  unfold escapeChar
  split_ifs with h1 h2 h3 h4 h5 h6
  · subst h1
    rw [parseChars.eq_def]
    simp [unescape, flush]
  · subst h2
    rw [parseChars.eq_def]
    simp [unescape, flush]
  · subst h3
    rw [parseChars.eq_def]
    simp [unescape, flush]
  · subst h4
    rw [parseChars.eq_def]
    simp [unescape, flush]
  · subst h5
    rw [parseChars.eq_def]
    simp [unescape, flush]
  · have hn : c.toNat < 55296 := by
      rcases h6 with h | h | h | h | h | h
      · omega
      · subst h; decide
      · subst h; decide
      · subst h; decide
      · omega
      · omega
    obtain ⟨a, b, x, d, hx, hc⟩ := hexCode_hex4 c.toNat (by omega)
    rw [hx, parseChars.eq_def]
    have hcc : Char.ofNat c.toNat = c := Char.ofNat_toNat c
    have hs : isSurrogate c.toNat = false := by
      simp only [isSurrogate, Bool.and_eq_false_imp, decide_eq_true_eq, decide_eq_false_iff_not]
      omega
    simp [hc, hcc, hs, flush]
  · rw [parseChars.eq_def]
    have h7 : ¬ c.toNat < 32 := fun h => h6 (Or.inl h)
    simp [h1, h2, h7, flush]

theorem parseChars_flatMap (cs : List Char) (rest : List Char) :
    parseChars none (cs.flatMap escapeChar ++ '"' :: rest) = some (cs, rest) := by
  induction cs with
  | nil => rw [parseChars.eq_def]; simp [flush]
  | cons c cs ih =>
    rw [List.flatMap_cons, List.append_assoc, parseChars_escapeChar, ih]
    rfl

theorem parseChars_quote (s : String) (rest : List Char) :
    ∃ tail, quote s ++ rest = '"' :: tail ∧ parseChars none tail = some (s.data, rest) := by
  refine ⟨s.data.flatMap escapeChar ++ '"' :: rest, ?_, parseChars_flatMap _ _⟩
  simp [quote]

theorem skipWs_replicate (n : Nat) (cs : List Char) :
    skipWs (List.replicate n ' ' ++ cs) = skipWs cs := by
  induction n with
  | zero => rfl
  | succ n ih =>
    rw [List.replicate_succ, List.cons_append, skipWs]
    simpa [isWs] using ih

theorem skipWs_newline (d : Nat) (cs : List Char) : skipWs (newline d ++ cs) = skipWs cs := by
  unfold newline
  rw [List.cons_append, skipWs]
  simpa [isWs] using skipWs_replicate _ _

theorem skipWs_cons (c : Char) (cs : List Char) (h : isWs c = false) :
    skipWs (c :: cs) = c :: cs := by
  rw [skipWs]; simp [h]

theorem isWs_of_isNumChar (c : Char) (h : isNumChar c = true) : isWs c = false := by
  by_contra hw
  simp only [isWs, Bool.or_eq_true, decide_eq_true_eq, Bool.not_eq_false] at hw
  rcases hw with ((hw | hw) | hw) | hw <;> subst hw <;> exact absurd h (by decide)

theorem spanNum_append (tok rest : List Char) (h : tok.all isNumChar = true)
    (hr : endsToken rest = true) : spanNum (tok ++ rest) = (tok, rest) := by
  induction tok with
  | nil =>
    cases rest with
    | nil => rfl
    | cons c cs =>
      simp only [endsToken, Bool.not_eq_true'] at hr
      simp [spanNum, hr]
  | cons c cs ih =>
    simp only [List.all_cons, Bool.and_eq_true] at h
    simp [spanNum, h.1, ih h.2]

theorem endsToken_renderItems (d d' : Nat) (xs : List JVal) (rest : List Char) :
    endsToken (renderItems d xs ++ newline d' ++ rest) = true := by
  cases xs <;> simp [renderItems, newline, endsToken] <;> decide

theorem endsToken_renderMembers (d d' : Nat) (kvs : List (String × JVal))
    (rest : List Char) : endsToken (renderMembers d kvs ++ newline d' ++ rest) = true := by
  rcases kvs with _ | ⟨⟨k, v⟩, kvs⟩ <;> simp [renderMembers, newline, endsToken] <;> decide

theorem JVal.size_pos (v : JVal) : 1 ≤ v.size := by
  cases v <;> simp [JVal.size]

theorem parseValue_newline (fuel d : Nat) (cs : List Char) :
    parseValue fuel (newline d ++ cs) = parseValue fuel cs := by
  cases fuel with
  | zero => simp [parseValue]
  | succ f => rw [parseValue, parseValue, skipWs_newline]

theorem parseValue_space (fuel : Nat) (cs : List Char) :
    parseValue fuel (' ' :: cs) = parseValue fuel cs := by
  cases fuel with
  | zero => simp [parseValue]
  | succ f =>
    rw [parseValue, parseValue]
    have : skipWs (' ' :: cs) = skipWs cs := by rw [skipWs]; simp [isWs]
    rw [this]

theorem parseValue_str (f : Nat) (s : String) (d : Nat) (rest : List Char) :
    parseValue (f + 1) (render d (.str s) ++ rest) = some (.str s, rest) := by
  have h1 : render d (.str s) ++ rest =
      '"' :: (s.data.flatMap escapeChar ++ '"' :: rest) := by simp [render, quote]
  rw [h1, parseValue, skipWs_cons _ _ (by decide)]
  simp [parseChars_flatMap, isNumChar]

theorem parseValue_num (f : Nat) (tok : String) (d : Nat) (rest : List Char)
    (hw : wellFormed (.num tok) = true) (hr : endsToken rest = true) :
    parseValue (f + 1) (render d (.num tok) ++ rest) = some (.num tok, rest) := by
  simp only [wellFormed, Bool.and_eq_true] at hw
  obtain ⟨hv, ha⟩ := hw
  cases htd : tok.data with
  | nil => rw [htd] at hv; simp [validNumber, dropSign] at hv
  | cons c cs =>
    have hc : isNumChar c = true := by
      rw [htd] at ha; simp only [List.all_cons, Bool.and_eq_true] at ha; exact ha.1
    have hs : spanNum (c :: (cs ++ rest)) = (c :: cs, rest) := by
      rw [← List.cons_append, ← htd]; exact spanNum_append _ _ ha hr
    have h1 : render d (.num tok) ++ rest = c :: (cs ++ rest) := by simp [render, htd]
    rw [h1, parseValue, skipWs_cons _ _ (isWs_of_isNumChar c hc)]
    simp only [hc, if_true, hs]
    rw [← htd, if_pos hv]

theorem render_head (v : JVal) (d : Nat) (hw : wellFormed v = true) :
    ∃ c tail, render d v = c :: tail ∧ isWs c = false ∧ c ≠ ']' := by
  cases v with
  | null => exact ⟨_, _, rfl, by decide, by decide⟩
  | bool b => cases b <;> exact ⟨_, _, rfl, by decide, by decide⟩
  | num tok =>
    simp only [wellFormed, Bool.and_eq_true] at hw
    cases htd : tok.data with
    | nil => rw [htd] at hw; simp [validNumber, dropSign] at hw
    | cons c cs =>
      have hc : isNumChar c = true := by
        have := hw.2; rw [htd] at this
        simp only [List.all_cons, Bool.and_eq_true] at this; exact this.1
      refine ⟨c, cs, by simp [render, htd], isWs_of_isNumChar c hc, ?_⟩
      intro h; subst h; exact absurd hc (by decide)
  | str s => exact ⟨_, _, rfl, by decide, by decide⟩
  | arr xs => cases xs <;> exact ⟨_, _, rfl, by decide, by decide⟩
  | obj kvs => rcases kvs with _ | ⟨⟨k, v⟩, kvs⟩ <;> exact ⟨_, _, rfl, by decide, by decide⟩

theorem readsBack_zero : ReadsBack 0 := by
  refine ⟨fun v d rest _ hs _ => ?_, fun xs d rest _ hs => ?_, fun k v d rest _ hs _ => ?_,
    fun kvs d rest _ hs => ?_⟩
  · have := v.size_pos; omega
  · cases xs <;> simp [sizeItems] at hs
  · omega
  · rcases kvs with _ | ⟨⟨k, v⟩, kvs⟩ <;> simp [sizeMembers] at hs

theorem readsBack_succ (f : Nat) (ih : ReadsBack f) : ReadsBack (f + 1) := by
  obtain ⟨ihV, ihI, ihM, ihMs⟩ := ih
  refine ⟨?_, ?_, ?_, ?_⟩
  · intro v d rest hw hs hr
    cases v with
    | null =>
      show parseValue (f + 1) ('n' :: 'u' :: 'l' :: 'l' :: rest) = _
      rw [parseValue, skipWs_cons _ _ (by decide)]
      simp [isNumChar]
    | bool b =>
      cases b
      · show parseValue (f + 1) ('f' :: 'a' :: 'l' :: 's' :: 'e' :: rest) = _
        rw [parseValue, skipWs_cons _ _ (by decide)]
        simp [isNumChar]
      · show parseValue (f + 1) ('t' :: 'r' :: 'u' :: 'e' :: rest) = _
        rw [parseValue, skipWs_cons _ _ (by decide)]
        simp [isNumChar]
    | num tok => exact parseValue_num f tok d rest hw hr
    | str s => exact parseValue_str f s d rest
    | arr xs =>
      cases xs with
      | nil =>
        show parseValue (f + 1) ('[' :: ']' :: rest) = _
        rw [parseValue, skipWs_cons _ _ (by decide)]
        simp [isNumChar, skipWs, isWs]
      | cons x xs =>
        simp only [wellFormed, wellFormedItems, Bool.and_eq_true] at hw
        simp only [JVal.size, sizeItems] at hs
        obtain ⟨c, tail, hc, hcw, hcb⟩ := render_head x (d + 1) hw.1
        have h1 : render d (.arr (x :: xs)) ++ rest = '[' :: (newline (d + 1) ++
            (render (d + 1) x ++ (renderItems (d + 1) xs ++ newline d ++ ']' :: rest))) := by
          simp [render]
        have h2 : skipWs (newline (d + 1) ++
            (render (d + 1) x ++ (renderItems (d + 1) xs ++ newline d ++ ']' :: rest))) =
            c :: (tail ++ (renderItems (d + 1) xs ++ newline d ++ ']' :: rest)) := by
          rw [skipWs_newline, hc, List.cons_append, skipWs_cons _ _ hcw]
        rw [h1, parseValue, skipWs_cons _ _ (by decide)]
        simp only [h2, parseValue_newline]
        have e1 := ihV x (d + 1) _ hw.1 (by omega)
          (endsToken_renderItems (d + 1) d xs (']' :: rest))
        have e2 := ihI xs d rest hw.2 (by omega)
        simp only [List.append_assoc, List.cons_append] at e1 e2
        simp [isNumChar, hcb, e1, e2]
    | obj kvs =>
      rcases kvs with _ | ⟨⟨k, v⟩, kvs⟩
      · show parseValue (f + 1) ('{' :: '}' :: rest) = _
        rw [parseValue, skipWs_cons _ _ (by decide)]
        simp [isNumChar, skipWs, isWs]
      · simp only [wellFormed, wellFormedMembers, Bool.and_eq_true] at hw
        simp only [JVal.size, sizeMembers] at hs
        have h1 : render d (.obj ((k, v) :: kvs)) ++ rest = '{' :: (newline (d + 1) ++
            quote k ++ ':' :: ' ' :: render (d + 1) v ++
              (renderMembers (d + 1) kvs ++ newline d ++ '}' :: rest)) := by
          simp [render]
        have h2 : skipWs (newline (d + 1) ++
            quote k ++ ':' :: ' ' :: render (d + 1) v ++
              (renderMembers (d + 1) kvs ++ newline d ++ '}' :: rest)) =
            '"' :: (k.data.flatMap escapeChar ++ '"' :: (':' :: ' ' :: render (d + 1) v ++
              (renderMembers (d + 1) kvs ++ newline d ++ '}' :: rest))) := by
          rw [List.append_assoc, List.append_assoc, skipWs_newline]
          simp only [quote, List.cons_append, List.append_assoc, List.nil_append]
          rw [skipWs_cons _ _ (by decide)]
        rw [h1, parseValue, skipWs_cons _ _ (by decide)]
        simp only [h2]
        have e1 := ihM k v (d + 1) _ hw.1 (by omega)
          (endsToken_renderMembers (d + 1) d kvs ('}' :: rest))
        have e2 := ihMs kvs d rest hw.2 (by omega)
        simp only [List.append_assoc, List.cons_append] at e1 e2
        simp [isNumChar, e1, e2]
  · intro xs d rest hw hs
    cases xs with
    | nil =>
      show parseItems (f + 1) (newline d ++ ']' :: rest) = _
      rw [parseItems, skipWs_newline, skipWs_cons _ _ (by decide)]
      simp
    | cons x xs =>
      simp only [wellFormedItems, Bool.and_eq_true] at hw
      simp only [sizeItems] at hs
      have hx := x.size_pos
      have h1 : renderItems (d + 1) (x :: xs) ++ newline d ++ ']' :: rest =
          ',' :: (newline (d + 1) ++ (render (d + 1) x ++
            (renderItems (d + 1) xs ++ newline d ++ ']' :: rest))) := by
        simp [renderItems]
      rw [h1, parseItems, skipWs_cons _ _ (by decide)]
      simp only [parseValue_newline]
      have e1 := ihV x (d + 1) _ hw.1 (by omega)
        (endsToken_renderItems (d + 1) d xs (']' :: rest))
      have e2 := ihI xs d rest hw.2 (by omega)
      simp only [List.append_assoc, List.cons_append] at e1 e2
      simp [e1, e2]
  · intro k v d rest hw hs hr
    have h1 : newline d ++ quote k ++ ':' :: ' ' :: render d v ++ rest =
        newline d ++ ('"' :: (k.data.flatMap escapeChar ++
          '"' :: (':' :: ' ' :: (render d v ++ rest)))) := by
      simp [quote]
    rw [h1, parseMember, skipWs_newline, skipWs_cons _ _ (by decide)]
    simp only [parseChars_flatMap, if_true]
    rw [skipWs_cons _ _ (by decide)]
    have e1 := ihV v d rest hw (by omega) hr
    simp [parseValue_space, e1]
  · intro kvs d rest hw hs
    rcases kvs with _ | ⟨⟨k, v⟩, kvs⟩
    · show parseMembers (f + 1) (newline d ++ '}' :: rest) = _
      rw [parseMembers, skipWs_newline, skipWs_cons _ _ (by decide)]
      simp
    · simp only [wellFormedMembers, Bool.and_eq_true] at hw
      simp only [sizeMembers] at hs
      have h1 : renderMembers (d + 1) ((k, v) :: kvs) ++ newline d ++ '}' :: rest =
          ',' :: (newline (d + 1) ++ quote k ++ ':' :: ' ' :: render (d + 1) v ++
            (renderMembers (d + 1) kvs ++ newline d ++ '}' :: rest)) := by
        simp [renderMembers]
      rw [h1, parseMembers, skipWs_cons _ _ (by decide)]
      simp only
      have e1 := ihM k v (d + 1) _ hw.1 (by omega)
        (endsToken_renderMembers (d + 1) d kvs ('}' :: rest))
      have e2 := ihMs kvs d rest hw.2 (by omega)
      simp only [List.append_assoc, List.cons_append] at e1 e2
      simp [e1, e2]

theorem readsBack (fuel : Nat) : ReadsBack fuel := by
  induction fuel with
  | zero => exact readsBack_zero
  | succ f ih => exact readsBack_succ f ih

theorem sizeBound (n : Nat) : SizeBound n := by
  induction n with
  | zero =>
    refine ⟨fun v d _ hs => ?_, fun xs d _ hs => ?_, fun kvs d _ hs => ?_⟩
    · have := v.size_pos; omega
    · cases xs <;> simp [sizeItems] at hs
    · rcases kvs with _ | ⟨⟨k, v⟩, kvs⟩ <;> simp [sizeMembers] at hs
  | succ n ih =>
    obtain ⟨ihV, ihI, ihM⟩ := ih
    refine ⟨fun v d hw hs => ?_, fun xs d hw hs => ?_, fun kvs d hw hs => ?_⟩
    · cases v with
      | null => simp [JVal.size, render]
      | bool b => cases b <;> simp [JVal.size, render]
      | num tok =>
        simp only [wellFormed, Bool.and_eq_true] at hw
        cases htd : tok.data with
        | nil => rw [htd] at hw; simp [validNumber, dropSign] at hw
        | cons c cs => simp [JVal.size, render, htd]
      | str s => simp [JVal.size, render, quote]
      | arr xs =>
        cases xs with
        | nil => simp [JVal.size, render, sizeItems]
        | cons x xs =>
          simp only [wellFormed, wellFormedItems, Bool.and_eq_true] at hw
          simp only [JVal.size, sizeItems] at hs ⊢
          have e1 := ihV x (d + 1) hw.1 (by omega)
          have e2 := ihI xs (d + 1) hw.2 (by omega)
          simp only [render, List.length_cons, List.length_append, newline, List.length_nil]
          omega
      | obj kvs =>
        rcases kvs with _ | ⟨⟨k, v⟩, kvs⟩
        · simp [JVal.size, render, sizeMembers]
        · simp only [wellFormed, wellFormedMembers, Bool.and_eq_true] at hw
          simp only [JVal.size, sizeMembers] at hs ⊢
          have e1 := ihV v (d + 1) hw.1 (by omega)
          have e2 := ihM kvs (d + 1) hw.2 (by omega)
          simp only [render, quote, List.length_cons, List.length_append, newline,
            List.length_nil]
          omega
    · cases xs with
      | nil => simp [sizeItems]
      | cons x xs =>
        simp only [wellFormedItems, Bool.and_eq_true] at hw
        simp only [sizeItems] at hs ⊢
        have hx := x.size_pos
        have e1 := ihV x d hw.1 (by omega)
        have e2 := ihI xs d hw.2 (by omega)
        simp only [renderItems, List.length_cons, List.length_append, newline]
        omega
    · rcases kvs with _ | ⟨⟨k, v⟩, kvs⟩
      · simp [sizeMembers]
      · simp only [wellFormedMembers, Bool.and_eq_true] at hw
        simp only [sizeMembers] at hs ⊢
        have e1 := ihV v d hw.1 (by omega)
        have e2 := ihM kvs d hw.2 (by omega)
        simp only [renderMembers, quote, List.length_cons, List.length_append, newline]
        omega

/-- Reading the text `render` writes for a well-formed document gives the
document back. -/
theorem parseJSON_render (v : JVal) (hw : wellFormed v = true) :
    parseJSON (String.mk (render 0 v)) = some v := by
  have hs : v.size ≤ (render 0 v).length + 1 :=
    Nat.le_succ_of_le ((sizeBound v.size).1 v 0 hw (Nat.le_refl _))
  have h := (readsBack ((render 0 v).length + 1)).1 v 0 [] hw hs rfl
  rw [List.append_nil] at h
  unfold parseJSON
  simp only [String.length, h]
  rfl


/-! ## The persisted document -/

theorem encodeAll_wellFormed {α : Type} (enc : α → Except GoError JVal) (xs : List α)
    (h : xs.all (fun x => okWith wellFormed (enc x)) = true) (vs : List JVal)
    (he : encodeAll enc xs = .ok vs) : wellFormedItems vs = true := by
  induction xs generalizing vs with
  | nil => simp only [encodeAll, Except.ok.injEq] at he; subst he; rfl
  | cons x xs ih =>
    simp only [List.all_cons, Bool.and_eq_true] at h
    unfold encodeAll at he
    cases hx : enc x with
    | error e => simp [hx] at he
    | ok v =>
      cases hxs : encodeAll enc xs with
      | error e => simp [hx, hxs] at he
      | ok ws =>
        simp only [hx, hxs, Except.ok.injEq] at he
        subst he
        have hv : wellFormed v = true := by simpa [okWith, hx] using h.1
        simp [wellFormedItems, hv, ih h.2 ws hxs]

theorem encodeSlice_wellFormed {α : Type} (enc : α → Except GoError JVal) (sl : Slice α)
    (h : (elems sl).all (fun x => okWith wellFormed (enc x)) = true) (c : JVal)
    (he : encodeSlice enc sl = .ok c) : wellFormed c = true := by
  cases sl with
  | none => simp only [encodeSlice, Except.ok.injEq] at he; subst he; rfl
  | some xs =>
    unfold encodeSlice at he
    cases hxs : encodeAll enc xs with
    | error e => simp [hxs] at he
    | ok vs =>
      simp only [hxs, Except.ok.injEq] at he
      subst he
      simpa [wellFormed] using encodeAll_wellFormed enc xs h vs hxs

theorem encodePtr_wellFormed {α : Type} (enc : α → Except GoError JVal) (p : Ptr α)
    (h : allPtr (fun x => okWith wellFormed (enc x)) p = true) (c : JVal)
    (he : encodePtr enc p = .ok c) : wellFormed c = true := by
  cases p with
  | none => simp only [encodePtr, Except.ok.injEq] at he; subst he; rfl
  | some x =>
    simp only [encodePtr] at he
    simpa [allPtr, okWith, he] using h

/-- A successful encoding of a snapshot is an object of exactly the five tagged
members, in declaration order, each the encoding of its field. -/
theorem encodeSysInfo_ok (j : JsonEncoders) (s : SysInfo) (v : JVal)
    (he : encodeSysInfo j s = .ok v) :
    ∃ c m d h n, v = .obj [("cpu_info", c), ("mem_info", m), ("disk_info", d),
        ("host_info", h), ("net_info", n)] ∧
      encodeSlice j.cpu s.CPUInfo = .ok c ∧ encodePtr j.mem s.VmStat = .ok m ∧
      encodePtr j.disk s.DiscStat = .ok d ∧ encodePtr j.host s.HostStat = .ok h ∧
      encodeSlice j.net s.NetStat = .ok n := by
  unfold encodeSysInfo at he
  cases h1 : encodeSlice j.cpu s.CPUInfo with
  | error e => simp [h1] at he
  | ok c =>
    cases h2 : encodePtr j.mem s.VmStat with
    | error e => simp [h1, h2] at he
    | ok m =>
      cases h3 : encodePtr j.disk s.DiscStat with
      | error e => simp [h1, h2, h3] at he
      | ok d =>
        cases h4 : encodePtr j.host s.HostStat with
        | error e => simp [h1, h2, h3, h4] at he
        | ok h =>
          cases h5 : encodeSlice j.net s.NetStat with
          | error e => simp [h1, h2, h3, h4, h5] at he
          | ok n =>
            simp only [h1, h2, h3, h4, h5, Except.ok.injEq] at he
            exact ⟨c, m, d, h, n, he.symm, rfl, rfl, rfl, rfl, rfl⟩

theorem encodeSysInfo_wellFormed (j : JsonEncoders) (s : SysInfo) (v : JVal)
    (hw : encodersWellFormed j s = true) (he : encodeSysInfo j s = .ok v) :
    wellFormed v = true := by
  obtain ⟨c, m, d, h, n, hv, h1, h2, h3, h4, h5⟩ := encodeSysInfo_ok j s v he
  simp only [encodersWellFormed, Bool.and_eq_true] at hw
  obtain ⟨⟨⟨⟨w1, w2⟩, w3⟩, w4⟩, w5⟩ := hw
  subst hv
  simp [wellFormed, wellFormedMembers, encodeSlice_wellFormed _ _ w1 c h1,
    encodePtr_wellFormed _ _ w2 m h2, encodePtr_wellFormed _ _ w3 d h3,
    encodePtr_wellFormed _ _ w4 h h4, encodeSlice_wellFormed _ _ w5 n h5]

/-- The text `json.MarshalIndent` returns reads back as the encoding of the snapshot. -/
theorem parseJSON_MarshalIndent (j : JsonEncoders) (s : SysInfo) (text : String)
    (hw : encodersWellFormed j s = true) (hm : MarshalIndent j s = .ok text) :
    ∃ v, encodeSysInfo j s = .ok v ∧ parseJSON text = some v := by
  unfold MarshalIndent at hm
  cases he : encodeSysInfo j s with
  | error e => simp [he] at hm
  | ok v =>
    simp only [he, Except.ok.injEq] at hm
    subst hm
    exact ⟨v, rfl, parseJSON_render v (encodeSysInfo_wellFormed j s v hw he)⟩

/-- What a returning `SaveSystemInfoToFile` went through. -/
theorem save_returns (env : Env) (s : SysInfo) (w w' : World)
    (h : SaveSystemInfoToFile env s w = .ret () w') :
    ∃ text, MarshalIndent env.json s = .ok text ∧ w'.file = some text ∧
      w'.handle = .closed ∧
      w'.stdout = w.stdout ++ [.colored [.FgGreen] "\nJSON data saved to system-info.json\n"] := by
  unfold SaveSystemInfoToFile at h
  cases hc : env.osCreate with
  | some e => simp [hc, logFatalf] at h
  | none =>
    cases hm : MarshalIndent env.json s with
    | error e => simp [hc, hm, logFatalf] at h
    | ok text =>
      cases hw : env.fileWrite text with
      | short n e => simp [hc, hm, hw, logFatalf] at h
      | ok =>
        simp only [hc, hm, hw, Run.ret.injEq, true_and] at h
        subst h
        exact ⟨text, rfl, rfl, rfl, rfl⟩

/-- C2: when `SaveSystemInfoToFile` returns, `system-info.json` holds a text
that reads as a JSON object with exactly the members `cpu_info`, `mem_info`,
`disk_info`, `host_info`, `net_info`, whose values are the `encoding/json`
encodings of the fields `CPUInfo`, `VmStat`, `DiscStat`, `HostStat`, `NetStat`
of the snapshot passed in.  The encodings of the gopsutil records are taken
to be JSON with well-formed number tokens. -/
theorem saved_file_has_five_members (env : Env) (s : SysInfo) (w w' : World)
    (hw : encodersWellFormed env.json s = true)
    (h : SaveSystemInfoToFile env s w = .ret () w') :
    ∃ text c m d h n, w'.file = some text ∧
      parseJSON text = some (.obj [("cpu_info", c), ("mem_info", m), ("disk_info", d),
        ("host_info", h), ("net_info", n)]) ∧
      encodeSlice env.json.cpu s.CPUInfo = .ok c ∧ encodePtr env.json.mem s.VmStat = .ok m ∧
      encodePtr env.json.disk s.DiscStat = .ok d ∧
      encodePtr env.json.host s.HostStat = .ok h ∧
      encodeSlice env.json.net s.NetStat = .ok n := by
  obtain ⟨text, hm, hf, _, _⟩ := save_returns env s w w' h
  obtain ⟨v, he, hp⟩ := parseJSON_MarshalIndent env.json s text hw hm
  obtain ⟨c, m, d, hh, n, hv, h1, h2, h3, h4, h5⟩ := encodeSysInfo_ok env.json s v he
  exact ⟨text, c, m, d, hh, n, hf, hv ▸ hp, h1, h2, h3, h4, h5⟩

/-- Witness of `saved_file_has_five_members`: saving the sample snapshot. -/
theorem saved_file_has_five_members_witness :
    ∃ text c m d h n,
      (SaveSystemInfoToFile sampleEnv sampleInfo (World.start none)).world.file = some text ∧
      parseJSON text = some (.obj [("cpu_info", c), ("mem_info", m), ("disk_info", d),
        ("host_info", h), ("net_info", n)]) ∧
      encodeSlice sampleEnv.json.cpu sampleInfo.CPUInfo = .ok c ∧
      encodePtr sampleEnv.json.mem sampleInfo.VmStat = .ok m ∧
      encodePtr sampleEnv.json.disk sampleInfo.DiscStat = .ok d ∧
      encodePtr sampleEnv.json.host sampleInfo.HostStat = .ok h ∧
      encodeSlice sampleEnv.json.net sampleInfo.NetStat = .ok n :=
  saved_file_has_five_members sampleEnv sampleInfo (World.start none)
    (SaveSystemInfoToFile sampleEnv sampleInfo (World.start none)).world (by decide) rfl

/-! ## Round trip through JSON -/

/-- A run in which every query, the create, the encoding and the write succeed,
and the pointers returned are non-nil, ends with `main` returning (status 0):
the file holds exactly the text `json.MarshalIndent` produced, whatever it held
before, the handle is closed, and the confirmation message is the last thing
printed. -/
theorem main_success (env : Env) (file : Option String) (s : SysInfo) (w : World)
    (text : String)
    (hc : collect env (World.start file) = .ret s w)
    (hv : s.VmStat ≠ none) (hd : s.DiscStat ≠ none) (hh : s.HostStat ≠ none)
    (hcr : env.osCreate = none) (hm : MarshalIndent env.json s = .ok text)
    (hw : env.fileWrite text = .ok) :
    ∃ w', main env (World.start file) = .ret () w' ∧
      (main env (World.start file)).status = 0 ∧
      w'.file = some text ∧ w'.handle = .closed ∧
      w'.stdout.getLast? =
        some (.colored [.FgGreen] "\nJSON data saved to system-info.json\n") ∧
      w'.entered = [.GetCPUInfo, .GetVmStat, .GetDiscStat, .GetHostStat, .GetNetStat,
        .PrintSystemInfo, .SaveSystemInfoToFile] := by
  obtain ⟨vm, hvm⟩ := Option.ne_none_iff_exists'.mp hv
  obtain ⟨disc, hdisc⟩ := Option.ne_none_iff_exists'.mp hd
  obtain ⟨host, hhost⟩ := Option.ne_none_iff_exists'.mp hh
  have he : w.entered = [.GetCPUInfo, .GetVmStat, .GetDiscStat, .GetHostStat,
      .GetNetStat] := by
    unfold collect GetCPUInfo GetVmStat GetDiscStat GetHostStat GetNetStat at hc
    cases h1 : env.cpuInfo.err <;> cases h2 : env.virtualMemory.err <;>
      cases h3 : (env.diskUsage "/").err <;> cases h4 : env.hostInfo.err <;>
      cases h5 : (env.netIOCounters true).err <;>
      simp_all [Run.bind, logFatalf, enter, World.start]
    rw [← hc.2]
  rw [main_eq_collect, hc]
  simp only [Run.bind, PrintSystemInfo_populated env s w vm disc host hvm hdisc hhost,
    SaveSystemInfoToFile, hcr, hm, hw]
  refine ⟨_, rfl, rfl, rfl, rfl, ?_, ?_⟩
  · simp [colorPrintf, fileClose, enter]
  · simp [colorPrintf, fileClose, enter, he]

/-- Witness of `main_success`: the run of `sampleEnv` over a file that held `old`. -/
theorem main_success_witness :
    ∃ w', main sampleEnv (World.start (some "old")) = .ret () w' ∧
      (main sampleEnv (World.start (some "old"))).status = 0 ∧
      w'.file = (MarshalIndent sampleEncoders sampleInfo).toOption ∧ w'.handle = .closed ∧
      w'.stdout.getLast? =
        some (.colored [.FgGreen] "\nJSON data saved to system-info.json\n") ∧
      w'.entered = [.GetCPUInfo, .GetVmStat, .GetDiscStat, .GetHostStat, .GetNetStat,
        .PrintSystemInfo, .SaveSystemInfoToFile] :=
  main_success sampleEnv (some "old") sampleInfo
    (collect sampleEnv (World.start (some "old"))).world _ rfl (by decide) (by decide)
    (by decide) rfl rfl rfl

/-- When `os.Create` fails, `SaveSystemInfoToFile` ends in `os.Exit(1)` with the
file as it was, no handle opened and nothing printed. -/
theorem save_create_failure (env : Env) (s : SysInfo) (w : World) (e : GoError)
    (hc : env.osCreate = some e) :
    ∃ w', SaveSystemInfoToFile env s w = .exit 1 w' ∧ w'.file = w.file ∧
      w'.handle = w.handle ∧ w'.stdout = w.stdout ∧
      w'.stderr = w.stderr ++ ["Error creating JSON file: " ++ e] := by
  simp only [SaveSystemInfoToFile, hc, logFatalf]
  exact ⟨_, rfl, rfl, rfl, rfl, rfl⟩

/-- Witness of `save_create_failure`: a create refused for lack of permission. -/
theorem save_create_failure_witness :
    ∃ w', SaveSystemInfoToFile { sampleEnv with osCreate := some "permission denied" }
        sampleInfo (World.start (some "old")) = .exit 1 w' ∧
      w'.file = (World.start (some "old")).file ∧
      w'.handle = (World.start (some "old")).handle ∧
      w'.stdout = (World.start (some "old")).stdout ∧
      w'.stderr = (World.start (some "old")).stderr ++
        ["Error creating JSON file: " ++ "permission denied"] :=
  save_create_failure { sampleEnv with osCreate := some "permission denied" } sampleInfo
    (World.start (some "old")) "permission denied" rfl

/-- The renderer has no nil check: a query that returns a nil pointer together
with a nil error lets `main` reach `PrintSystemInfo`, which panics at the
first dereference, after the title and the host header were printed; nothing
is saved. -/
theorem main_panics_on_nil_pointer :
    (main { sampleEnv with hostInfo := { val := none, err := none } }
      (World.start (some "old"))).status = 2 ∧
    (main { sampleEnv with hostInfo := { val := none, err := none } }
      (World.start (some "old"))).world.stdout =
      [.colored [.FgCyan, .Bold] "\nSystem Information\n",
       .colored [.FgGreen] "\nHost Information:\n"] ∧
    (main { sampleEnv with hostInfo := { val := none, err := none } }
      (World.start (some "old"))).world.file = some "old" ∧
    Fn.SaveSystemInfoToFile ∉
      (main { sampleEnv with hostInfo := { val := none, err := none } }
        (World.start (some "old"))).world.entered := by
  decide

/-- Memory total 1000, available 500, used 500, used percentage 50 renders as
the row `1000, 500, 500, 50.00%`. -/
theorem sample_memory_row : memRow sampleMem = ["1000", "500", "500", "50.00%"] := by
  decide

end SysInfoScript
